import Mathlib

/-!
Verification development for the mymtr probing engine.

The Go sources under internal/mtr are shallowly embedded here:
durations are integer nanosecond counts, Go float64 accumulators are
modelled as exact rationals, Go maps keyed by TTL are association lists,
and network / clock effects (the prober, the target resolver, the
reverse-DNS and geo-location collaborators, context cancellation) are
oracles supplied as explicit function parameters.
-/

namespace MyMTR

/-- Responder addresses, abstracted to an identifier with decidable
equality (net.IP values compared with IP.Equal). -/
abbrev Addr := Nat

/-- Opaque geo-location values (geoip.GeoLocation records). -/
abbrev Loc := Nat

/-- ResponseType from internal/mtr/prober.go. -/
inductive ResponseType
  | timeout
  | echoReply
  | timeExceeded
  | destUnreach
deriving DecidableEq, Repr

/-- ProbeResult from internal/mtr/prober.go; RTT and Timestamp are
nanosecond counts. -/
structure ProbeResult where
  ttl : Nat
  seq : Int
  ip : Option Addr
  rtt : Int
  ty : ResponseType
  timestamp : Int := 0
deriving DecidableEq, Repr

/-- Truncation of a rational toward zero, the behaviour of the Go
conversion int64(x) applied to a float64 value. -/
def ratTrunc (q : ℚ) : Int := q.num.tdiv q.den

/-- Floor of a rational as an integer. -/
def ratFloor (q : ℚ) : Int := q.num.fdiv q.den

/-- HopStats from internal/mtr/hop.go.  Sent and Received are Go ints;
Loss, mean and m2 are Go float64 fields modelled as rationals; the
duration fields are nanosecond counts. -/
structure HopStats where
  Sent : Int := 0
  Received : Int := 0
  Loss : ℚ := 0
  Last : Int := 0
  Best : Int := 0
  Worst : Int := 0
  Avg : Int := 0
  StdDev : Int := 0
  History : List Int := []
  mean : ℚ := 0
  m2 : ℚ := 0
  n : Nat := 0
deriving DecidableEq, Repr

/-- NewHopStats from internal/mtr/hop.go. -/
def NewHopStats : HopStats := {}

/-- HopStats.appendHistory: keep at most the 10 most recent samples,
evicting the oldest first. -/
def appendHistory (h : List Int) (rtt : Int) : List Int :=
  if h.length < 10 then h ++ [rtt] else h.tail ++ [rtt]

/-- HopStats.AddRTT from internal/mtr/hop.go: running min/max/last, a
one-pass streaming mean and sum of squared deviations, sample standard
deviation with the n-1 denominator for n > 1.  The float64 arithmetic
of the source is modelled as exact rational arithmetic, and the float64
square root composed with the int64 conversion is modelled as the exact
truncated real square root. -/
def HopStats.AddRTT (s : HopStats) (rtt : Int) : HopStats :=
  let best := if s.Best = 0 ∨ rtt < s.Best then rtt else s.Best
  let worst := if rtt > s.Worst then rtt else s.Worst
  let n := s.n + 1
  let x : ℚ := (rtt : ℚ)
  let delta := x - s.mean
  let mean := s.mean + delta / (n : ℚ)
  let m2 := s.m2 + delta * (x - mean)
  let avg := ratTrunc mean
  let stddev :=
    if 1 < n then
      let variance := m2 / ((n : ℚ) - 1)
      let variance := if variance < 0 then 0 else variance
      Int.ofNat (Nat.sqrt (ratFloor variance).toNat)
    else s.StdDev
  { s with Last := rtt, Best := best, Worst := worst, n := n,
           mean := mean, m2 := m2, Avg := avg, StdDev := stddev,
           History := appendHistory s.History rtt }

/-- HopStats.UpdateLoss from internal/mtr/hop.go. -/
def HopStats.UpdateLoss (s : HopStats) : HopStats :=
  if s.Sent ≤ 0 then { s with Loss := 0 }
  else
    let l := (1 - (s.Received : ℚ) / (s.Sent : ℚ)) * 100
    let l := if l < 0 then 0 else l
    let l := if l > 100 then 100 else l
    { s with Loss := l }

/-- Hop from internal/mtr/hop.go. -/
structure Hop where
  TTL : Nat
  IP : Option Addr := none
  Hostname : String := ""
  Location : Option Loc := none
  Stats : HopStats := {}
  Lost : Bool := true
deriving DecidableEq, Repr

/-- NewHop from internal/mtr/hop.go. -/
def NewHop (ttl : Nat) : Hop := { TTL := ttl }

/-! ## Controller state and applyResult -/

/-- The collaborator context that Controller.applyResult consults:
whether reverse DNS is enabled, the geo resolver (none models a nil
resolver), and the reverse-DNS oracle. -/
structure ApplyEnv where
  enableDNS : Bool := false
  resolver : Option (Addr → Option Loc) := none
  dns : Addr → String := fun _ => ""

/-- The per-hop body of Controller.applyResult (part_008 lines
128-163), instrumented with the list of addresses passed to the geo
resolver during this call (empty or a singleton).  The Sent increment,
the timeout branch, the Received/AddRTT/UpdateLoss sequence, the DNS
refresh, the location clearing on address change and the lazy Resolve
call follow the source order exactly. -/
def applyToHop (env : ApplyEnv) (hop : Hop) (res : Option ProbeResult) :
    Hop × List Addr :=
  let hop := { hop with Stats := { hop.Stats with Sent := hop.Stats.Sent + 1 } }
  match res with
  | none => ({ hop with Lost := true, Stats := hop.Stats.UpdateLoss }, [])
  | some r =>
    match r.ip with
    | none => ({ hop with Lost := true, Stats := hop.Stats.UpdateLoss }, [])
    | some a =>
      if r.ty = ResponseType.timeout then
        ({ hop with Lost := true, Stats := hop.Stats.UpdateLoss }, [])
      else
        let ipChanged := hop.IP ≠ some a
        let hop := { hop with Lost := false, IP := some a }
        let stats := { hop.Stats with Received := hop.Stats.Received + 1 }
        let stats := (stats.AddRTT r.rtt).UpdateLoss
        let hop := { hop with Stats := stats }
        let hop :=
          if env.enableDNS ∧ (hop.Hostname = "" ∨ ipChanged) then
            { hop with Hostname := env.dns a }
          else hop
        let hop := if ipChanged then { hop with Location := none } else hop
        match env.resolver with
        | some f =>
          if hop.Location = none then ({ hop with Location := f a }, [a])
          else (hop, [])
        | none => (hop, [])

/-- Lookup in the TTL-keyed hop map. -/
def findHop (hops : List Hop) (ttl : Nat) : Option Hop :=
  hops.find? (fun h => h.TTL == ttl)

/-- Store a hop under its TTL: replace the existing entry, else append
(map assignment on the Go map keyed by TTL). -/
def setHop (hops : List Hop) (ttl : Nat) (h : Hop) : List Hop :=
  match hops with
  | [] => [h]
  | g :: gs => if g.TTL = ttl then h :: gs else g :: setHop gs ttl h

/-- Controller.applyResult at the level of the hop map: fetch or
lazily create the hop for this TTL, update it, store it back; also
report the geo-resolver calls made. -/
def applyResult (env : ApplyEnv) (hops : List Hop) (ttl : Nat)
    (res : Option ProbeResult) : List Hop × List Addr :=
  let hop := (findHop hops ttl).getD (NewHop ttl)
  let out := applyToHop env hop res
  (setHop hops ttl out.1, out.2)

/-- The controller operations whose interleavings generate the
reachable hop-map states: applying a probe result, and recomputing the
loss of one accumulator. -/
inductive CtrlOp
  | applyRes (ttl : Nat) (res : Option ProbeResult)
  | recomputeLoss (ttl : Nat)

/-- Execute one controller operation on the hop map. -/
def execOp (env : ApplyEnv) (hops : List Hop) : CtrlOp → List Hop
  | CtrlOp.applyRes ttl res => (applyResult env hops ttl res).1
  | CtrlOp.recomputeLoss ttl =>
      hops.map fun h =>
        if h.TTL = ttl then { h with Stats := h.Stats.UpdateLoss } else h

/-- Execute a sequence of controller operations starting from the
empty hop map of a fresh controller. -/
def execOps (env : ApplyEnv) (ops : List CtrlOp) : List Hop :=
  ops.foldl (execOp env) []

/-! ## Controller.Run: round and TTL scheduling -/

/-- Run-relevant configuration after NewController validation:
MaxHops is positive; Count is the Go int round count (0 means
unbounded, negative also loops forever). -/
structure RunCfg where
  maxHops : Nat
  count : Int
deriving DecidableEq, Repr

/-- The sequence number the Controller computes for a probe
(part_008 line 100): seq = round * MaxHops + ttl. -/
def seqNum (maxHops round ttl : Nat) : Nat := round * maxHops + ttl

/-- Errors Run can return, as distinguishable causes: the context
cancellation error, target-resolution and SetTarget failures, and a
fatal prober error. -/
inductive GoErr
  | ctxCanceled
  | resolveFailed
  | setTargetFailed
  | probeFatal
deriving DecidableEq, Repr

/-- EventType from internal/mtr/events.go. -/
inductive EventTy
  | hopUpdated
  | roundCompleted
  | doneEv
  | errorEv
deriving DecidableEq, Repr

/-- Event from internal/mtr/events.go. -/
structure Event where
  ty : EventTy
  ttl : Nat := 0
  round : Nat := 0
  err : Option GoErr := none
deriving DecidableEq, Repr

def errEvent (e : GoErr) : Event := { ty := EventTy.errorEv, err := some e }

def hopUpdatedEvent (ttl round : Nat) : Event :=
  { ty := EventTy.hopUpdated, ttl := ttl, round := round }

def roundCompletedEvent (round : Nat) : Event :=
  { ty := EventTy.roundCompleted, round := round }

def doneEvent : Event := { ty := EventTy.doneEv }

/-- Outcome of one Prober.Probe call as the Controller sees it: a
result (possibly nil) with a nil error, or a fatal transport error. -/
inductive ProbeOutcome
  | ok (res : Option ProbeResult)
  | fatal (e : GoErr)

def ProbeOutcome.isOk : ProbeOutcome → Bool
  | ProbeOutcome.ok _ => true
  | ProbeOutcome.fatal _ => false

/-- The external world of one Run call: outcome of target resolution
and SetTarget, the probe oracle indexed by (ttl, seq), and the
cancellation signal as observed at the top of each round and during
each inter-round wait. -/
structure RunEnv where
  resolveOutcome : Except GoErr Addr
  setTargetOutcome : Option GoErr := none
  probe : Nat → Nat → ProbeOutcome
  cancelAtRoundStart : Nat → Bool := fun _ => false
  cancelInWait : Nat → Bool := fun _ => false
  applyEnv : ApplyEnv := {}

/-- Mutable controller state threaded through a run: the hop map. -/
structure CtrlState where
  hops : List Hop
deriving DecidableEq, Repr

/-- Go: res != nil && res.Type == ResponseTypeEchoReply (the early
break condition of the TTL sweep). -/
def resIsEchoReply : Option ProbeResult → Bool
  | some r => r.ty == ResponseType.echoReply
  | none => false

/-- Result of one TTL sweep: the state, the events emitted during the
sweep, and the list of (ttl, result) pairs for the probes issued, in
issue order; fatal carries the prober error that aborts the run. -/
inductive RoundOut
  | fatal (e : GoErr) (st : CtrlState) (evs : List Event)
      (iss : List (Nat × Option ProbeResult))
  | finished (st : CtrlState) (evs : List Event)
      (iss : List (Nat × Option ProbeResult))

def RoundOut.state : RoundOut → CtrlState
  | RoundOut.fatal _ st _ _ => st
  | RoundOut.finished st _ _ => st

def RoundOut.evs : RoundOut → List Event
  | RoundOut.fatal _ _ evs _ => evs
  | RoundOut.finished _ evs _ => evs

def RoundOut.iss : RoundOut → List (Nat × Option ProbeResult)
  | RoundOut.fatal _ _ _ iss => iss
  | RoundOut.finished _ _ iss => iss

/-- Prepend the event and issued-probe record of the current TTL onto
the instrumentation of the rest of the sweep. -/
def RoundOut.push (ev : Event) (pr : Nat × Option ProbeResult) :
    RoundOut → RoundOut
  | RoundOut.fatal e st evs iss => RoundOut.fatal e st (ev :: evs) (pr :: iss)
  | RoundOut.finished st evs iss =>
      RoundOut.finished st (ev :: evs) (pr :: iss)

/-- The TTL sweep of one round (part_008 lines 99-111): for ttl from 1
to MaxHops, compute seq, probe, apply the result, publish HopUpdated,
and break once the result is an EchoReply.  `rem` counts the TTLs
still allowed (maxHops - ttl + 1 at entry). -/
def runTTLs (cfg : RunCfg) (env : RunEnv) (round : Nat) :
    Nat → Nat → CtrlState → RoundOut
  | 0, _ttl, st => RoundOut.finished st [] []
  | rem + 1, ttl, st =>
    match env.probe ttl (seqNum cfg.maxHops round ttl) with
    | ProbeOutcome.fatal e => RoundOut.fatal e st [errEvent e] []
    | ProbeOutcome.ok res =>
      let st' : CtrlState := ⟨(applyResult env.applyEnv st.hops ttl res).1⟩
      let ev := hopUpdatedEvent ttl round
      if resIsEchoReply res then RoundOut.finished st' [ev] [(ttl, res)]
      else RoundOut.push ev (ttl, res) (runTTLs cfg env round rem (ttl + 1) st')

/-- One full round entered at TTL 1. -/
def runRound (cfg : RunCfg) (env : RunEnv) (round : Nat) (st : CtrlState) :
    RoundOut :=
  runTTLs cfg env round cfg.maxHops 1 st

/-- rounds := Count, with 0 mapped to -1 (unbounded), from part_008
lines 88-91. -/
def roundsOf (cfg : RunCfg) : Int := if cfg.count = 0 then -1 else cfg.count

/-- Result of the round loop: the value Run returns (none models a nil
error), the final state, and the emitted events; outOfFuel marks runs
longer than the analysis bound. -/
inductive LoopOut
  | done (ret : Option GoErr) (st : CtrlState) (evs : List Event)
  | outOfFuel (st : CtrlState) (evs : List Event)

def LoopOut.ret : LoopOut → Option GoErr
  | LoopOut.done r _ _ => r
  | LoopOut.outOfFuel _ _ => none

def LoopOut.state : LoopOut → CtrlState
  | LoopOut.done _ st _ => st
  | LoopOut.outOfFuel st _ => st

def LoopOut.evs : LoopOut → List Event
  | LoopOut.done _ _ evs => evs
  | LoopOut.outOfFuel _ evs => evs

/-- Prepend the events of the current round onto the remainder of the
loop instrumentation. -/
def LoopOut.withEvs (evs : List Event) : LoopOut → LoopOut
  | LoopOut.done r st evs2 => LoopOut.done r st (evs ++ evs2)
  | LoopOut.outOfFuel st evs2 => LoopOut.outOfFuel st (evs ++ evs2)

/-- The round loop of Controller.Run (part_008 lines 93-125): check the
loop condition, then the cancellation signal, run the TTL sweep, publish
RoundCompleted, and wait out the interval (cancellable) unless this was
the final round.  Done is published and nil returned only when the loop
condition fails. -/
def roundLoop (cfg : RunCfg) (env : RunEnv) : Nat → Nat → CtrlState → LoopOut
  | 0, _round, st => LoopOut.outOfFuel st []
  | fuel + 1, round, st =>
    let rounds := roundsOf cfg
    if ¬ (rounds < 0 ∨ (round : Int) < rounds) then
      LoopOut.done none st [doneEvent]
    else if env.cancelAtRoundStart round then
      LoopOut.done (some GoErr.ctxCanceled) st [errEvent GoErr.ctxCanceled]
    else
      match runRound cfg env round st with
      | RoundOut.fatal e st' evs _ => LoopOut.done (some e) st' evs
      | RoundOut.finished st' evs _ =>
        let evs := evs ++ [roundCompletedEvent round]
        if rounds < 0 ∨ (round : Int) ≠ rounds - 1 then
          if env.cancelInWait round then
            LoopOut.done (some GoErr.ctxCanceled) st'
              (evs ++ [errEvent GoErr.ctxCanceled])
          else LoopOut.withEvs evs (roundLoop cfg env fuel (round + 1) st')
        else LoopOut.withEvs evs (roundLoop cfg env fuel (round + 1) st')

/-- Controller.Run (part_008 lines 65-126): resolve the target (fatal on
failure, with an Error event), bind it into the prober, then drive the
round loop from round 0 and the empty hop map. -/
def ControllerRun (cfg : RunCfg) (env : RunEnv) (fuel : Nat) : LoopOut :=
  match env.resolveOutcome with
  | Except.error e => LoopOut.done (some e) ⟨[]⟩ [errEvent e]
  | Except.ok _tip =>
    match env.setTargetOutcome with
    | some e => LoopOut.done (some e) ⟨[]⟩ [errEvent e]
    | none => roundLoop cfg env fuel 0 ⟨[]⟩

/-- The controller state after the TTL sweeps of `k` consecutive rounds
starting at index `round` from state `st` (the reference point for
"updates applied before cancellation remain visible"). -/
def foldRoundsFrom (cfg : RunCfg) (env : RunEnv) (st : CtrlState)
    (round : Nat) : Nat → CtrlState
  | 0 => st
  | k + 1 =>
    foldRoundsFrom cfg env (runRound cfg env round st).state (round + 1) k

/-- The controller state after the first `n` rounds of a run. -/
def stateAfterRounds (cfg : RunCfg) (env : RunEnv) (n : Nat) : CtrlState :=
  foldRoundsFrom cfg env ⟨[]⟩ 0 n

/-! ## Snapshot -/

/-- durationMs from internal/mtr/hop.go: non-positive durations render
as 0; otherwise round to the nearest millisecond, ties away from zero,
then count milliseconds. -/
def durationMs (d : Int) : Int :=
  if d ≤ 0 then 0 else (d + 500000).fdiv 1000000

/-- SnapshotHop together with its stats block, from
internal/mtr/hop.go (string renderings omitted). -/
structure SnapshotHopS where
  TTL : Nat
  IP : Option Addr
  Hostname : String
  Lost : Bool
  Location : Option Loc
  Sent : Int
  Received : Int
  Loss : ℚ
  LastMs : Int
  AvgMs : Int
  BestMs : Int
  WorstMs : Int
  StdDevMs : Int
  HistoryMs : List Int
deriving DecidableEq, Repr

/-- Hop.ToSnapshot from internal/mtr/hop.go. -/
def Hop.ToSnapshot (h : Hop) : SnapshotHopS :=
  { TTL := h.TTL
    IP := h.IP
    Hostname := h.Hostname
    Lost := h.Lost
    Location := h.Location
    Sent := h.Stats.Sent
    Received := h.Stats.Received
    Loss := h.Stats.Loss
    LastMs := durationMs h.Stats.Last
    AvgMs := durationMs h.Stats.Avg
    BestMs := durationMs h.Stats.Best
    WorstMs := durationMs h.Stats.Worst
    StdDevMs := durationMs h.Stats.StdDev
    HistoryMs := h.Stats.History.map durationMs }

/-- Insertion into a list of hops sorted by TTL. -/
def insertByTTL (h : Hop) : List Hop → List Hop
  | [] => [h]
  | g :: gs => if h.TTL < g.TTL then h :: g :: gs else g :: insertByTTL h gs

/-- Sorting of the hop map by TTL, as Controller.Snapshot does before
rendering. -/
def sortHops : List Hop → List Hop
  | [] => []
  | h :: hs => insertByTTL h (sortHops hs)

/-- The hop array of Controller.Snapshot (part_008 lines 166-190): the
current hops sorted by TTL and copied into snapshot records. -/
def snapshotHops (st : CtrlState) : List SnapshotHopS :=
  (sortHops st.hops).map Hop.ToSnapshot

/-! ## ICMP message model and reply classification

Inbound ICMP messages are modelled structurally: a type tag (the
golang.org/x/net ipv4/ipv6 ICMPType constants relevant to the probers,
everything else collapsed to `other`), a code and a body.  The external
byte-level parsers of golang.org/x/net (`icmp.ParseMessage`,
`ipv4.ParseHeader`, `ipv6.ParseHeader`) are oracles in a `ParseEnv`;
the header-skipping and matching logic performed by the repository code
itself is modelled concretely on byte lists. -/

/-- The ICMP message types the probers inspect. -/
inductive ICMPTy
  | v4EchoReply
  | v6EchoReply
  | v4TimeExceeded
  | v6TimeExceeded
  | v4DestUnreach
  | v6DestUnreach
  | other (fam : Nat) (t : Nat)
deriving DecidableEq, Repr

/-- ICMP message bodies: icmp.Echo, icmp.TimeExceeded, icmp.DstUnreach
and anything else. -/
inductive ICMPBody
  | echo (id : Int) (seq : Int) (dat : List Nat)
  | timeExceeded (dat : List Nat)
  | dstUnreach (dat : List Nat)
  | raw (dat : List Nat)
deriving DecidableEq, Repr

/-- An inbound ICMP message after icmp.ParseMessage. -/
structure ICMPMsg where
  ty : ICMPTy
  code : Int
  body : ICMPBody
deriving DecidableEq, Repr

/-- Oracles for the external golang.org/x/net parsers: parseHeader4
yields the IPv4 header length field on success (ipv4.ParseHeader),
parseHeader6Ok reports ipv6.ParseHeader success, and parseICMP is
icmp.ParseMessage for a given protocol number. -/
structure ParseEnv where
  parseHeader4 : List Nat → Option Int
  parseHeader6Ok : List Nat → Bool
  parseICMP : Nat → List Nat → Option ICMPMsg

/-- The identity of one ICMPProber: the IP family and the
process-derived echo identifier. -/
structure ICMPProberS where
  ipVersion : Nat
  id : Int
deriving DecidableEq, Repr

/-- ICMPProber.matchesQuoted (part_009 lines 202-240): the body must be
an icmp.TimeExceeded with non-empty quoted data; for IPv4 the quoted IP
header is parsed and its header length skipped (requiring at least 8
further bytes), for IPv6 the quoted header must parse and a fixed
40-byte header is skipped; the re-parsed inner message must carry an
Echo body with matching identifier and sequence. -/
def matchesQuoted (pe : ParseEnv) (p : ICMPProberS) (proto : Nat)
    (body : ICMPBody) (seq : Int) : Bool :=
  match body with
  | ICMPBody.timeExceeded dat =>
    if dat.length = 0 then false
    else if p.ipVersion = 4 then
      match pe.parseHeader4 dat with
      | none => false
      | some hLen =>
        if hLen ≤ 0 ∨ (dat.length : Int) < hLen + 8 then false
        else
          match pe.parseICMP proto (dat.drop hLen.toNat) with
          | none => false
          | some inner =>
            match inner.body with
            | ICMPBody.echo i s _ => i == p.id && s == seq
            | _ => false
    else
      if pe.parseHeader6Ok dat = false then false
      else if dat.length < 48 then false
      else
        match pe.parseICMP proto (dat.drop 40) with
        | none => false
        | some inner =>
          match inner.body with
          | ICMPBody.echo i s _ => i == p.id && s == seq
          | _ => false
  | _ => false

/-- ICMPProber.classifyReply (part_009 lines 184-200): Echo Replies are
accepted when identifier and sequence match, Time-Exceeded messages
when the quoted fragment matches; everything else is classified
Timeout so the read loop continues. -/
def classifyReply (pe : ParseEnv) (p : ICMPProberS) (proto : Nat)
    (rm : Option ICMPMsg) (seq : Int) : ResponseType :=
  match rm with
  | none => ResponseType.timeout
  | some m =>
    match m.ty with
    | ICMPTy.v4EchoReply | ICMPTy.v6EchoReply =>
      (match m.body with
       | ICMPBody.echo i s _ =>
         if i = p.id ∧ s = seq then ResponseType.echoReply
         else ResponseType.timeout
       | _ => ResponseType.timeout)
    | ICMPTy.v4TimeExceeded | ICMPTy.v6TimeExceeded =>
      if matchesQuoted pe p proto m.body seq then ResponseType.timeExceeded
      else ResponseType.timeout
    | _ => ResponseType.timeout

/-- The UDP prober identity: the IP family. -/
structure UDPProberS where
  ipVersion : Nat
deriving DecidableEq, Repr

/-- extractQuotedTransport from internal/mtr/udp_prober.go: skip the
quoted IP header (parsed length for IPv4, fixed 40 bytes for IPv6,
requiring 8 further bytes) and return the quoted transport header. -/
def extractQuotedTransport (pe : ParseEnv) (dat : List Nat)
    (ipVersion : Nat) : Option (List Nat) :=
  if ipVersion = 4 then
    match pe.parseHeader4 dat with
    | none => none
    | some hLen =>
      if hLen ≤ 0 ∨ (dat.length : Int) < hLen + 8 then none
      else some (dat.drop hLen.toNat)
  else
    if dat.length < 48 then none else some (dat.drop 40)

/-- UDPProber.matchesQuotedUDP (udp_prober.go lines 213-242): the body
must quote data (TimeExceeded or DstUnreach), the quoted transport
header must be recoverable and at least 8 bytes, and the quoted
destination port must equal the probe destination port (the quoted
source port is checked only when the local port was observable). -/
def matchesQuotedUDP (pe : ParseEnv) (p : UDPProberS) (body : ICMPBody)
    (localPort destPort : Int) : Bool :=
  match body with
  | ICMPBody.timeExceeded dat => matchesQuotedUDPData pe p dat localPort destPort
  | ICMPBody.dstUnreach dat => matchesQuotedUDPData pe p dat localPort destPort
  | _ => false
where
  matchesQuotedUDPData (pe : ParseEnv) (p : UDPProberS) (dat : List Nat)
      (localPort destPort : Int) : Bool :=
    if dat.length = 0 then false
    else
      match extractQuotedTransport pe dat p.ipVersion with
      | none => false
      | some udph =>
        if udph.length < 8 then false
        else
          let src : Int := (udph.getD 0 0 : Nat) * 256 + (udph.getD 1 0 : Nat)
          let dst : Int := (udph.getD 2 0 : Nat) * 256 + (udph.getD 3 0 : Nat)
          if destPort ≠ 0 ∧ dst ≠ destPort then false
          else if localPort ≠ 0 ∧ src ≠ localPort then false
          else true

/-- isPortUnreachable from internal/mtr/udp_prober.go: IPv4
Destination-Unreachable code 3, IPv6 Destination-Unreachable code 4. -/
def isPortUnreachable (rm : Option ICMPMsg) : Bool :=
  match rm with
  | none => false
  | some m =>
    match m.ty with
    | ICMPTy.v4DestUnreach => m.code == 3
    | ICMPTy.v6DestUnreach => m.code == 4
    | _ => false

/-- UDPProber.classifyUDPReply (udp_prober.go lines 188-211): accepted
Time-Exceeded messages classify as TimeExceeded; accepted
Destination-Unreachable messages classify as EchoReply when the code
means port unreachable (destination reached) and as DestUnreach
otherwise; everything else is not accepted and reads as Timeout. -/
def classifyUDPReply (pe : ParseEnv) (p : UDPProberS) (rm : Option ICMPMsg)
    (localPort destPort : Int) : ResponseType × Bool :=
  match rm with
  | none => (ResponseType.timeout, false)
  | some m =>
    match m.ty with
    | ICMPTy.v4TimeExceeded | ICMPTy.v6TimeExceeded =>
      if matchesQuotedUDP pe p m.body localPort destPort then
        (ResponseType.timeExceeded, true)
      else (ResponseType.timeout, false)
    | ICMPTy.v4DestUnreach | ICMPTy.v6DestUnreach =>
      if ¬ matchesQuotedUDP pe p m.body localPort destPort then
        (ResponseType.timeout, false)
      else if isPortUnreachable (some m) then (ResponseType.echoReply, true)
      else (ResponseType.destUnreach, true)
    | _ => (ResponseType.timeout, false)

/-- The destination port UDPProber.Probe derives from the sequence
number (udp_prober.go line 77): basePort + seq % 10000 with
basePort 33434 and the Go truncated remainder. -/
def udpDestPort (seq : Int) : Int := 33434 + Int.tmod seq 10000

/-! ## NewController -/

/-- Construction-time failures of NewController. -/
inductive CtorErr
  | cfgEmpty
  | proberEmpty
  | targetEmpty
  | ipVersionInvalid
deriving DecidableEq, Repr

/-- Config from internal/mtr/config.go; the Target is a character
sequence, durations are nanosecond counts, Protocol is the protocol
name string. -/
structure GoConfig where
  Target : List Char
  TargetIP : String := ""
  MaxHops : Int := 0
  Count : Int := 0
  Interval : Int := 0
  Timeout : Int := 0
  Protocol : String := ""
  IPVersion : Int := 0
  EnableDNS : Bool := false
deriving DecidableEq, Repr

/-- The Go unicode.IsSpace predicate (the White Space property), used
by strings.TrimSpace. -/
def goIsSpace (c : Char) : Bool :=
  let n := c.toNat
  (Nat.ble 9 n && Nat.ble n 13) || n == 32 || n == 133 || n == 160 ||
    n == 5760 || (Nat.ble 8192 n && Nat.ble n 8202) || n == 8232 ||
    n == 8233 || n == 8239 || n == 8287 || n == 12288

/-- strings.TrimSpace on the target: drop leading and trailing White
Space characters. -/
def trimSpace (l : List Char) : List Char :=
  ((l.dropWhile goIsSpace).reverse.dropWhile goIsSpace).reverse

/-- NewController (part_008 lines 26-59): reject a nil config, a nil
prober, an all-whitespace target and an IP version other than 4 or 6;
replace a non-positive MaxHops, Timeout or Interval and an empty
Protocol with the defaults 30, 1s, 1s and icmp.  The cfg parameter is
a pointer in the source, so the defaulted configuration returned on
success is the caller-visible mutation of its Config object. -/
def NewController (cfg : Option GoConfig) (proberGiven : Bool) :
    Except CtorErr GoConfig :=
  match cfg with
  | none => Except.error CtorErr.cfgEmpty
  | some cfg =>
    if proberGiven = false then Except.error CtorErr.proberEmpty
    else if trimSpace cfg.Target = [] then Except.error CtorErr.targetEmpty
    else
      let cfg := if cfg.MaxHops ≤ 0 then { cfg with MaxHops := 30 } else cfg
      let cfg :=
        if cfg.Timeout ≤ 0 then { cfg with Timeout := 1000000000 } else cfg
      let cfg :=
        if cfg.Interval ≤ 0 then { cfg with Interval := 1000000000 } else cfg
      if cfg.IPVersion ≠ 4 ∧ cfg.IPVersion ≠ 6 then
        Except.error CtorErr.ipVersionInvalid
      else
        let cfg := if cfg.Protocol = "" then { cfg with Protocol := "icmp" }
                   else cfg
        Except.ok cfg

/-! ## Claim C9: the loss formula -/

/-- Clamping into the interval [0,100], as the specification words the
loss formula. -/
def clampLoss (q : ℚ) : ℚ := if q < 0 then 0 else if q > 100 then 100 else q

lemma updateLoss_loss_pos (s : HopStats) (h : 0 < s.Sent) :
    (s.UpdateLoss).Loss
      = clampLoss ((((s.Sent : ℚ) - (s.Received : ℚ)) / (s.Sent : ℚ)) * 100) := by
  have hnot : ¬ s.Sent ≤ 0 := not_le.mpr h
  have hs0 : (s.Sent : ℚ) ≠ 0 := by exact_mod_cast h.ne'
  have harg : (1 - (s.Received : ℚ) / (s.Sent : ℚ)) * 100
      = (((s.Sent : ℚ) - (s.Received : ℚ)) / (s.Sent : ℚ)) * 100 := by
    field_simp
  simp only [HopStats.UpdateLoss, hnot, if_false, clampLoss, harg]
  split_ifs <;> first | rfl | linarith

/-- Claim C9: recomputing loss sets Loss to 0 when Sent is zero or
negative, and otherwise to (Sent - Received)/Sent x 100 clamped into
[0,100]; in particular Sent = 3 with Received = 0 yields Loss = 100. -/
theorem C9_updateLoss_spec (s : HopStats) :
    (s.Sent ≤ 0 → (s.UpdateLoss).Loss = 0) ∧
    (0 < s.Sent → (s.UpdateLoss).Loss
        = clampLoss ((((s.Sent : ℚ) - (s.Received : ℚ)) / (s.Sent : ℚ)) * 100)) ∧
    (s.Sent = 3 → s.Received = 0 → (s.UpdateLoss).Loss = 100) := by
  refine ⟨fun h => by simp [HopStats.UpdateLoss, h], updateLoss_loss_pos s, ?_⟩
  intro h3 h0
  rw [updateLoss_loss_pos s (by omega), h3, h0]
  norm_num [clampLoss]

/-- Witness for C9 at the concrete accumulator with 3 sent, 0
received. -/
theorem C9_witness :
    (HopStats.UpdateLoss { Sent := 3, Received := 0 }).Loss = 100 :=
  (C9_updateLoss_spec { Sent := 3, Received := 0 }).2.2 rfl rfl

/-! ## Claim C4: sequence numbers are injective -/

lemma seqNum_lt (M r1 t1 r2 t2 : Nat) (ht1 : t1 ≤ M) (ht2 : 1 ≤ t2)
    (hr : r1 < r2) : seqNum M r1 t1 < seqNum M r2 t2 := by
  have h3 : r1 * M + M ≤ r2 * M := by
    have h4 : r1 + 1 ≤ r2 := Nat.succ_le_of_lt hr
    calc r1 * M + M = (r1 + 1) * M := by ring
    _ ≤ r2 * M := Nat.mul_le_mul_right M h4
  unfold seqNum
  generalize r1 * M = a at *
  generalize r2 * M = b at *
  omega

/-- Claim C4: with MaxHops = M at least 1, the sequence number
seq(round, ttl) = round * M + ttl computed by the Controller is
injective over all pairs with 1 <= ttl <= M, so no two probes of one
run share a sequence number. -/
theorem C4_seqNum_injective (M r1 t1 r2 t2 : Nat) (hM : 1 ≤ M)
    (h11 : 1 ≤ t1) (h12 : t1 ≤ M) (h21 : 1 ≤ t2) (h22 : t2 ≤ M)
    (heq : seqNum M r1 t1 = seqNum M r2 t2) : r1 = r2 ∧ t1 = t2 := by
  rcases Nat.lt_trichotomy r1 r2 with h | h | h
  · exact absurd heq (Nat.ne_of_lt (seqNum_lt M r1 t1 r2 t2 h12 h21 h))
  · subst h
    refine ⟨rfl, ?_⟩
    unfold seqNum at heq
    generalize r1 * M = a at heq
    omega
  · exact absurd heq.symm (Nat.ne_of_lt (seqNum_lt M r2 t2 r1 t1 h22 h11 h))

/-- Witness for C4 at M = 30, round 2, ttl 3. -/
theorem C4_witness : (1 ≤ 30) ∧ ((2 : Nat) = 2 ∧ (3 : Nat) = 3) :=
  ⟨by decide, C4_seqNum_injective 30 2 3 2 3 (by decide) (by decide)
    (by decide) (by decide) (by decide) rfl⟩

/-! ## Claim C7: the streaming statistics accumulator -/

/-- Sum of a sample list, in exact arithmetic. -/
def sumQ (xs : List Int) : ℚ := (xs.map fun x => (x : ℚ)).sum

/-- Sum of squared samples. -/
def sumSqQ (xs : List Int) : ℚ := (xs.map fun x => (x : ℚ) ^ 2).sum

/-- Sum of squared deviations from a reference value. -/
def sqDevSum (xs : List Int) (mu : ℚ) : ℚ :=
  (xs.map fun x => ((x : ℚ) - mu) ^ 2).sum

/-- The accumulator obtained by feeding a sample list through AddRTT
starting from a fresh accumulator. -/
def statsOf (xs : List Int) : HopStats := xs.foldl HopStats.AddRTT NewHopStats

lemma statsOf_append (xs : List Int) (y : Int) :
    statsOf (xs ++ [y]) = (statsOf xs).AddRTT y := by
  simp [statsOf, List.foldl_append]

lemma sumQ_append (xs : List Int) (y : Int) :
    sumQ (xs ++ [y]) = sumQ xs + (y : ℚ) := by
  simp [sumQ]

lemma sumSqQ_append (xs : List Int) (y : Int) :
    sumSqQ (xs ++ [y]) = sumSqQ xs + (y : ℚ) ^ 2 := by
  simp [sumSqQ]

lemma sqDevSum_expand (xs : List Int) (mu : ℚ) :
    sqDevSum xs mu
      = sumSqQ xs - 2 * mu * sumQ xs + (xs.length : ℚ) * mu ^ 2 := by
  induction xs with
  | nil => simp [sqDevSum, sumSqQ, sumQ]
  | cons x xs ih =>
    have h1 : sqDevSum (x :: xs) mu = ((x : ℚ) - mu) ^ 2 + sqDevSum xs mu := by
      simp [sqDevSum]
    have h2 : sumSqQ (x :: xs) = (x : ℚ) ^ 2 + sumSqQ xs := by
      simp [sumSqQ]
    have h3 : sumQ (x :: xs) = (x : ℚ) + sumQ xs := by
      simp [sumQ]
    rw [h1, h2, h3, ih, List.length_cons]
    push_cast
    ring

lemma sqDevSum_mean (xs : List Int) :
    sqDevSum xs (sumQ xs / (xs.length : ℚ))
      = sumSqQ xs - (sumQ xs) ^ 2 / (xs.length : ℚ) := by
  rcases Nat.eq_zero_or_pos xs.length with h | h
  · have hnil : xs = [] := List.length_eq_zero.mp h
    subst hnil
    simp [sqDevSum, sumSqQ, sumQ]
  · have hlen : ((xs.length : ℚ)) ≠ 0 := Nat.cast_ne_zero.mpr h.ne'
    rw [sqDevSum_expand]
    field_simp
    ring

lemma sqDevSum_nonneg (xs : List Int) (mu : ℚ) : 0 ≤ sqDevSum xs mu := by
  apply List.sum_nonneg
  intro q hq
  simp only [sqDevSum, List.mem_map] at hq
  obtain ⟨x, _, rfl⟩ := hq
  positivity

lemma statsOf_core (xs : List Int) :
    (statsOf xs).n = xs.length ∧
    (statsOf xs).mean = sumQ xs / (xs.length : ℚ) ∧
    (statsOf xs).m2 = sumSqQ xs - (sumQ xs) ^ 2 / (xs.length : ℚ) ∧
    (statsOf xs).Avg = ratTrunc ((statsOf xs).mean) ∧
    (xs.length ≤ 1 → (statsOf xs).StdDev = 0) ∧
    (1 < xs.length → (statsOf xs).StdDev =
      Int.ofNat (Nat.sqrt (ratFloor
        (if (statsOf xs).m2 / ((xs.length : ℚ) - 1) < 0 then 0
         else (statsOf xs).m2 / ((xs.length : ℚ) - 1))).toNat)) := by
  induction xs using List.reverseRecOn with
  | nil =>
    refine ⟨rfl, by simp [statsOf, NewHopStats, sumQ], by simp [statsOf, NewHopStats, sumSqQ, sumQ], ?_, fun _ => rfl, fun h => absurd h (by simp)⟩
    show (0 : Int) = ratTrunc 0
    rfl
  | append_singleton xs y ih =>
    obtain ⟨ihn, ihmean, ihm2, _ihavg, ihsd1, _ihsd2⟩ := ih
    rw [statsOf_append]
    set s := statsOf xs with hs
    have hn : (s.AddRTT y).n = s.n + 1 := rfl
    have hmean' : (s.AddRTT y).mean
        = s.mean + ((y : ℚ) - s.mean) / ((s.n + 1 : Nat) : ℚ) := rfl
    have hm2' : (s.AddRTT y).m2
        = s.m2 + ((y : ℚ) - s.mean) * ((y : ℚ) - (s.AddRTT y).mean) := rfl
    have havg' : (s.AddRTT y).Avg = ratTrunc ((s.AddRTT y).mean) := rfl
    have hlen : (xs ++ [y]).length = xs.length + 1 := by simp
    have hmean : (s.AddRTT y).mean
        = sumQ (xs ++ [y]) / ((xs ++ [y]).length : ℚ) := by
      rw [hmean', ihmean, ihn, sumQ_append, hlen]
      rcases Nat.eq_zero_or_pos xs.length with h0 | hpos
      · have hnil : xs = [] := List.length_eq_zero.mp h0
        subst hnil
        simp [sumQ]
      · have hq : ((xs.length : ℚ)) ≠ 0 := Nat.cast_ne_zero.mpr hpos.ne'
        have hq1 : ((xs.length : ℚ)) + 1 ≠ 0 := by positivity
        push_cast
        field_simp
        ring
    have hm2 : (s.AddRTT y).m2
        = sumSqQ (xs ++ [y]) - (sumQ (xs ++ [y])) ^ 2 / ((xs ++ [y]).length : ℚ) := by
      rw [hm2', hmean, ihm2, ihmean, sumQ_append, sumSqQ_append, hlen]
      rcases Nat.eq_zero_or_pos xs.length with h0 | hpos
      · have hnil : xs = [] := List.length_eq_zero.mp h0
        subst hnil
        norm_num [sumQ, sumSqQ]
      · have hq : ((xs.length : ℚ)) ≠ 0 := Nat.cast_ne_zero.mpr hpos.ne'
        have hq1 : ((xs.length : ℚ)) + 1 ≠ 0 := by positivity
        push_cast
        field_simp
        ring
    have hsd' : (s.AddRTT y).StdDev
        = (if 1 < s.n + 1 then
            Int.ofNat (Nat.sqrt (ratFloor
              (if (s.AddRTT y).m2 / (((s.n + 1 : Nat) : ℚ) - 1) < 0 then 0
               else (s.AddRTT y).m2 / (((s.n + 1 : Nat) : ℚ) - 1))).toNat)
           else s.StdDev) := rfl
    refine ⟨by rw [hn, ihn, hlen], hmean, hm2, havg', ?_, ?_⟩
    · intro hle
      rw [hlen] at hle
      have h0 : xs.length = 0 := by omega
      have hnot : ¬ 1 < s.n + 1 := by
        rw [ihn, h0]
        omega
      rw [hsd', if_neg hnot]
      exact ihsd1 (by omega)
    · intro hlt
      rw [hlen] at hlt
      have h1 : 1 < s.n + 1 := by
        rw [ihn]
        omega
      have hcast : ((s.n + 1 : Nat) : ℚ) = (((xs ++ [y]).length : Nat) : ℚ) := by
        rw [ihn, hlen]
      rw [hsd', if_pos h1, hcast]

lemma addRTT_n_eq (s : HopStats) (y : Int) : (s.AddRTT y).n = s.n + 1 := rfl

lemma addRTT_mean_eq (s : HopStats) (y : Int) :
    (s.AddRTT y).mean = s.mean + ((y : ℚ) - s.mean) / ((s.n + 1 : Nat) : ℚ) := rfl

lemma addRTT_m2_eq (s : HopStats) (y : Int) :
    (s.AddRTT y).m2
      = s.m2 + ((y : ℚ) - s.mean) * ((y : ℚ) - (s.AddRTT y).mean) := rfl

lemma addRTT_avg_eq (s : HopStats) (y : Int) :
    (s.AddRTT y).Avg = ratTrunc ((s.AddRTT y).mean) := rfl

lemma addRTT_stddev_eq (s : HopStats) (y : Int) :
    (s.AddRTT y).StdDev
      = (if 1 < s.n + 1 then
          Int.ofNat (Nat.sqrt (ratFloor
            (if (s.AddRTT y).m2 / (((s.n + 1 : Nat) : ℚ) - 1) < 0 then 0
             else (s.AddRTT y).m2 / (((s.n + 1 : Nat) : ℚ) - 1))).toNat)
         else s.StdDev) := rfl

lemma ratTrunc_intCast (z : Int) : ratTrunc (z : ℚ) = z := by
  rw [ratTrunc, Rat.intCast_num, Rat.intCast_den]
  exact Int.tdiv_one z

lemma ratFloor_intCast (z : Int) : ratFloor (z : ℚ) = z := by
  rw [ratFloor, Rat.intCast_num, Rat.intCast_den]
  exact Int.fdiv_one z

lemma sqrt_fifty_trillion : Nat.sqrt 50000000000000 = 7071067 := by
  have hle : 7071067 ≤ Nat.sqrt 50000000000000 := Nat.le_sqrt.mpr (by norm_num)
  have hlt : Nat.sqrt 50000000000000 < 7071068 := Nat.sqrt_lt.mpr (by norm_num)
  omega

lemma statsOf_example_fields :
    (statsOf [10000000, 20000000]).Avg = 15000000 ∧
    (statsOf [10000000, 20000000]).StdDev = 7071067 := by
  have hfold : statsOf [10000000, 20000000]
      = (NewHopStats.AddRTT 10000000).AddRTT 20000000 := rfl
  have h1n : (NewHopStats.AddRTT 10000000).n = 1 := rfl
  have h1mean : (NewHopStats.AddRTT 10000000).mean = 10000000 := by
    rw [addRTT_mean_eq, show NewHopStats.mean = 0 from rfl,
      show NewHopStats.n = 0 from rfl]
    norm_num
  have h1m2 : (NewHopStats.AddRTT 10000000).m2 = 0 := by
    rw [addRTT_m2_eq, h1mean, show NewHopStats.m2 = 0 from rfl,
      show NewHopStats.mean = 0 from rfl]
    norm_num
  have h2mean : ((NewHopStats.AddRTT 10000000).AddRTT 20000000).mean
      = 15000000 := by
    rw [addRTT_mean_eq, h1mean, h1n]
    norm_num
  have h2m2 : ((NewHopStats.AddRTT 10000000).AddRTT 20000000).m2
      = 50000000000000 := by
    rw [addRTT_m2_eq, h2mean, h1m2, h1mean]
    norm_num
  constructor
  · rw [hfold, addRTT_avg_eq, h2mean,
      show (15000000 : ℚ) = ((15000000 : Int) : ℚ) by norm_num,
      ratTrunc_intCast]
  · rw [hfold, addRTT_stddev_eq, h1n, if_pos (by norm_num : 1 < 1 + 1), h2m2,
      show (((1 + 1 : Nat) : ℚ) - 1) = 1 by norm_num]
    rw [show ((50000000000000 : ℚ) / 1) = ((50000000000000 : Int) : ℚ) by norm_num]
    rw [if_neg (by norm_num : ¬ (((50000000000000 : Int) : ℚ) < 0)),
      ratFloor_intCast]
    rw [show ((50000000000000 : Int)).toNat = 50000000000000 from rfl,
      sqrt_fifty_trillion]
    rfl

/-- Claim C7: feeding 10 ms then 20 ms yields Avg = 15 ms and StdDev =
7071067 ns (about 7.071 ms, the truncated sample standard deviation);
in general after n samples the accumulator holds the exact running mean
and the exact sum of squared deviations of the samples, Avg is that
mean truncated to nanoseconds, StdDev is sqrt(sumSq/(n-1)) for n above
1 and zero for n at most 1. -/
theorem C7_stats_spec :
    ((statsOf [10000000, 20000000]).Avg = 15000000 ∧
     (statsOf [10000000, 20000000]).StdDev = 7071067) ∧
    (∀ xs : List Int,
      (statsOf xs).n = xs.length ∧
      (statsOf xs).mean = sumQ xs / (xs.length : ℚ) ∧
      (statsOf xs).Avg = ratTrunc (sumQ xs / (xs.length : ℚ)) ∧
      (statsOf xs).m2 = sqDevSum xs (sumQ xs / (xs.length : ℚ)) ∧
      (xs.length ≤ 1 → (statsOf xs).StdDev = 0) ∧
      (1 < xs.length → (statsOf xs).StdDev =
        Int.ofNat (Nat.sqrt (ratFloor
          (sqDevSum xs (sumQ xs / (xs.length : ℚ))
            / ((xs.length : ℚ) - 1))).toNat))) := by
  constructor
  · exact statsOf_example_fields
  · intro xs
    obtain ⟨h1, h2, h3, h4, h5, h6⟩ := statsOf_core xs
    have hm2dev : (statsOf xs).m2 = sqDevSum xs (sumQ xs / (xs.length : ℚ)) := by
      rw [h3, sqDevSum_mean]
    refine ⟨h1, h2, by rw [h4, h2], hm2dev, h5, ?_⟩
    intro hlt
    have hpos : (0 : ℚ) < (xs.length : ℚ) - 1 := by
      have hc : (1 : ℚ) < (xs.length : ℚ) := by exact_mod_cast hlt
      linarith
    have hv : ¬ ((statsOf xs).m2 / ((xs.length : ℚ) - 1) < 0) := by
      push_neg
      apply div_nonneg
      · rw [hm2dev]
        exact sqDevSum_nonneg _ _
      · linarith
    rw [h6 hlt, if_neg hv, hm2dev]

/-- Witness for C7: a single sample leaves the standard deviation at
zero. -/
theorem C7_witness : (statsOf [7]).StdDev = 0 :=
  (C7_stats_spec.2 [7]).2.2.2.2.1 (by decide)

/-! ## Claim C10: NewController validation and defaulting -/

lemma dropWhile_all_iff (p : Char → Bool) (l : List Char) :
    (∀ x ∈ l.dropWhile p, p x = true) ↔ (∀ x ∈ l, p x = true) := by
  constructor
  · intro h x hx
    rcases List.mem_append.mp
        ((List.takeWhile_append_dropWhile p l) ▸ hx) with h1 | h2
    · exact List.mem_takeWhile_imp h1
    · exact h x h2
  · intro h x hx
    exact h x ((List.dropWhile_sublist p).mem hx)

lemma trimSpace_eq_nil_iff (l : List Char) :
    trimSpace l = [] ↔ l.all goIsSpace = true := by
  unfold trimSpace
  rw [List.reverse_eq_nil_iff, List.dropWhile_eq_nil_iff, List.all_eq_true]
  constructor
  · intro h
    rw [← dropWhile_all_iff goIsSpace l]
    intro x hx
    exact h x (List.mem_reverse.mpr hx)
  · intro h x hx
    exact ((dropWhile_all_iff goIsSpace l).mpr h) x (List.mem_reverse.mp hx)

lemma newController_some_true (cfg : GoConfig) :
    NewController (some cfg) true
      = (if trimSpace cfg.Target = [] then Except.error CtorErr.targetEmpty
         else if cfg.IPVersion ≠ 4 ∧ cfg.IPVersion ≠ 6 then
           Except.error CtorErr.ipVersionInvalid
         else Except.ok
           { cfg with
             MaxHops := if cfg.MaxHops ≤ 0 then 30 else cfg.MaxHops,
             Timeout := if cfg.Timeout ≤ 0 then 1000000000 else cfg.Timeout,
             Interval := if cfg.Interval ≤ 0 then 1000000000 else cfg.Interval,
             Protocol := if cfg.Protocol = "" then "icmp" else cfg.Protocol }) := by
  by_cases h1 : cfg.MaxHops ≤ 0 <;> by_cases h2 : cfg.Timeout ≤ 0 <;>
    by_cases h3 : cfg.Interval ≤ 0 <;> by_cases h4 : cfg.Protocol = "" <;>
      simp [NewController, h1, h2, h3, h4]

/-- Claim C10: construction fails exactly for a nil configuration, a
nil prober, an empty or all-whitespace target, or an IP family other
than 4 or 6; non-positive MaxHops, Timeout, Interval and an empty
Protocol are silently defaulted to 30, 1s, 1s and icmp, written back
into the caller-visible configuration, with all other fields kept. -/
theorem C10_newController_spec (cfgOpt : Option GoConfig) (p : Bool) :
    ((∃ out, NewController cfgOpt p = Except.ok out) ↔
      (∃ cfg, cfgOpt = some cfg ∧ p = true ∧
        ¬ cfg.Target.all goIsSpace = true ∧
        (cfg.IPVersion = 4 ∨ cfg.IPVersion = 6))) ∧
    (∀ cfg out, cfgOpt = some cfg → NewController cfgOpt p = Except.ok out →
      out.MaxHops = (if cfg.MaxHops ≤ 0 then 30 else cfg.MaxHops) ∧
      out.Timeout = (if cfg.Timeout ≤ 0 then 1000000000 else cfg.Timeout) ∧
      out.Interval = (if cfg.Interval ≤ 0 then 1000000000 else cfg.Interval) ∧
      out.Protocol = (if cfg.Protocol = "" then "icmp" else cfg.Protocol) ∧
      out.Target = cfg.Target ∧ out.TargetIP = cfg.TargetIP ∧
      out.Count = cfg.Count ∧ out.IPVersion = cfg.IPVersion ∧
      out.EnableDNS = cfg.EnableDNS) := by
  cases cfgOpt with
  | none =>
    constructor
    · constructor
      · rintro ⟨c, hc⟩
        simp [NewController] at hc
      · rintro ⟨c, hc, _⟩
        exact absurd hc (by simp)
    · intro cfg out heq _hok
      exact absurd heq (by simp)
  | some cfg =>
    cases p with
    | false =>
      constructor
      · constructor
        · rintro ⟨c, hc⟩
          simp [NewController] at hc
        · rintro ⟨c, _, hp, _⟩
          exact absurd hp (by simp)
      · intro cfg0 out _heq hok
        simp [NewController] at hok
    | true =>
      by_cases htrim : trimSpace cfg.Target = []
      · have hall : cfg.Target.all goIsSpace = true :=
          (trimSpace_eq_nil_iff _).mp htrim
        constructor
        · constructor
          · rintro ⟨c, hc⟩
            rw [newController_some_true, if_pos htrim] at hc
            exact absurd hc (by simp)
          · rintro ⟨c, hc, _, hc3, _⟩
            injection hc with hcc
            subst hcc
            exact absurd hall hc3
        · intro cfg0 out heq hok
          injection heq with heq'
          subst heq'
          rw [newController_some_true, if_pos htrim] at hok
          exact absurd hok (by simp)
      · have hall : ¬ cfg.Target.all goIsSpace = true := fun h =>
          htrim ((trimSpace_eq_nil_iff _).mpr h)
        by_cases hip : cfg.IPVersion ≠ 4 ∧ cfg.IPVersion ≠ 6
        · constructor
          · constructor
            · rintro ⟨c, hc⟩
              rw [newController_some_true, if_neg htrim, if_pos hip] at hc
              exact absurd hc (by simp)
            · rintro ⟨c, hc, _, _, hc4⟩
              injection hc with hcc
              subst hcc
              rcases hc4 with h4 | h6
              · exact absurd h4 hip.1
              · exact absurd h6 hip.2
          · intro cfg0 out heq hok
            injection heq with heq'
            subst heq'
            rw [newController_some_true, if_neg htrim, if_pos hip] at hok
            exact absurd hok (by simp)
        · have hip' : cfg.IPVersion = 4 ∨ cfg.IPVersion = 6 := by
            by_contra hcon
            push_neg at hcon
            exact hip ⟨hcon.1, hcon.2⟩
          constructor
          · constructor
            · intro _
              exact ⟨cfg, rfl, rfl, hall, hip'⟩
            · intro _
              rw [newController_some_true, if_neg htrim, if_neg hip]
              exact ⟨_, rfl⟩
          · intro cfg0 out heq hok
            injection heq with heq'
            subst heq'
            rw [newController_some_true, if_neg htrim, if_neg hip] at hok
            injection hok with hok'
            subst hok'
            refine ⟨rfl, rfl, rfl, rfl, rfl, rfl, rfl, rfl, rfl⟩

/-- The sample configuration exercising the C10 defaulting path. -/
def c10cfg : GoConfig := { Target := ['a'], IPVersion := 4 }

/-- Witness for C10: a configuration with MaxHops 0 and empty Protocol
is accepted and defaulted to 30 hops and icmp. -/
theorem C10_witness :
    ((NewController (some c10cfg) true).map (fun out => out.MaxHops)
        = Except.ok 30) ∧
    ((NewController (some c10cfg) true).map (fun out => out.Protocol)
        = Except.ok "icmp") := by
  have h := (C10_newController_spec (some c10cfg) true).1.mpr
    ⟨c10cfg, rfl, rfl, by decide, Or.inl rfl⟩
  obtain ⟨out, hout⟩ := h
  have hfields := (C10_newController_spec (some c10cfg) true).2 c10cfg out rfl hout
  rw [hout]
  constructor
  · simp only [Except.map]
    rw [hfields.1]
    rfl
  · simp only [Except.map]
    rw [hfields.2.2.2.1]
    rfl

/-! ## Claim C2: sent/received and loss invariants -/

/-- The per-hop statistics invariant: received never exceeds sent, and
the loss percentage stays inside [0,100]. -/
def hopInv (h : Hop) : Prop :=
  h.Stats.Received ≤ h.Stats.Sent ∧ 0 ≤ h.Stats.Loss ∧ h.Stats.Loss ≤ 100

lemma updateLoss_sent (s : HopStats) : (s.UpdateLoss).Sent = s.Sent := by
  unfold HopStats.UpdateLoss
  split_ifs <;> rfl

lemma updateLoss_received (s : HopStats) : (s.UpdateLoss).Received = s.Received := by
  unfold HopStats.UpdateLoss
  split_ifs <;> rfl

lemma updateLoss_bounds (s : HopStats) :
    0 ≤ (s.UpdateLoss).Loss ∧ (s.UpdateLoss).Loss ≤ 100 := by
  simp only [HopStats.UpdateLoss]
  split_ifs <;> constructor <;> push_neg at * <;> first | linarith | norm_num

lemma addRTT_sent (s : HopStats) (y : Int) : (s.AddRTT y).Sent = s.Sent := rfl

lemma addRTT_received (s : HopStats) (y : Int) :
    (s.AddRTT y).Received = s.Received := rfl

/-- Whether a probe result counts as received (non-nil, non-timeout,
with a responder address). -/
def resReceived : Option ProbeResult → Bool
  | some r => !(r.ty == ResponseType.timeout) && r.ip.isSome
  | none => false

/-- The RTT of a received result. -/
def resRTT : Option ProbeResult → Int
  | some r => r.rtt
  | none => 0

lemma applyToHop_none_stats (env : ApplyEnv) (hop : Hop) :
    ((applyToHop env hop none).1).Stats
      = ({ hop.Stats with Sent := hop.Stats.Sent + 1 }).UpdateLoss := rfl

lemma applyToHop_noip_stats (env : ApplyEnv) (hop : Hop) (r : ProbeResult)
    (hip : r.ip = none) :
    ((applyToHop env hop (some r)).1).Stats
      = ({ hop.Stats with Sent := hop.Stats.Sent + 1 }).UpdateLoss := by
  simp only [applyToHop]
  rw [hip]

lemma applyToHop_timeout_stats (env : ApplyEnv) (hop : Hop) (r : ProbeResult)
    (a : Addr) (hip : r.ip = some a) (hty : r.ty = ResponseType.timeout) :
    ((applyToHop env hop (some r)).1).Stats
      = ({ hop.Stats with Sent := hop.Stats.Sent + 1 }).UpdateLoss := by
  simp only [applyToHop, hip]
  rw [if_pos hty]

lemma applyToHop_success_stats (env : ApplyEnv) (hop : Hop) (r : ProbeResult)
    (a : Addr) (hip : r.ip = some a) (hty : r.ty ≠ ResponseType.timeout) :
    ((applyToHop env hop (some r)).1).Stats
      = (HopStats.AddRTT
          { hop.Stats with
            Sent := hop.Stats.Sent + 1
            Received := hop.Stats.Received + 1 } r.rtt).UpdateLoss := by
  simp only [applyToHop, hip]
  rw [if_neg hty]
  cases env.resolver with
  | none => split_ifs <;> rfl
  | some f => split_ifs <;> rfl

lemma applyToHop_inv (env : ApplyEnv) (hop : Hop) (res : Option ProbeResult)
    (h : hopInv hop) : hopInv ((applyToHop env hop res).1) := by
  obtain ⟨hsr, _, _⟩ := h
  unfold hopInv
  cases res with
  | none =>
    rw [applyToHop_none_stats]
    refine ⟨?_, (updateLoss_bounds _).1, (updateLoss_bounds _).2⟩
    rw [updateLoss_received, updateLoss_sent]
    show hop.Stats.Received ≤ hop.Stats.Sent + 1
    omega
  | some r =>
    cases hip : r.ip with
    | none =>
      rw [applyToHop_noip_stats env hop r hip]
      refine ⟨?_, (updateLoss_bounds _).1, (updateLoss_bounds _).2⟩
      rw [updateLoss_received, updateLoss_sent]
      show hop.Stats.Received ≤ hop.Stats.Sent + 1
      omega
    | some a =>
      by_cases hty : r.ty = ResponseType.timeout
      · rw [applyToHop_timeout_stats env hop r a hip hty]
        refine ⟨?_, (updateLoss_bounds _).1, (updateLoss_bounds _).2⟩
        rw [updateLoss_received, updateLoss_sent]
        show hop.Stats.Received ≤ hop.Stats.Sent + 1
        omega
      · rw [applyToHop_success_stats env hop r a hip hty]
        refine ⟨?_, (updateLoss_bounds _).1, (updateLoss_bounds _).2⟩
        rw [updateLoss_received, updateLoss_sent, addRTT_received, addRTT_sent]
        show hop.Stats.Received + 1 ≤ hop.Stats.Sent + 1
        omega

lemma mem_setHop (hops : List Hop) (ttl : Nat) (h g : Hop)
    (hg : g ∈ setHop hops ttl h) : g = h ∨ g ∈ hops := by
  induction hops with
  | nil => simpa [setHop] using hg
  | cons x xs ih =>
    unfold setHop at hg
    by_cases hx : x.TTL = ttl
    · rw [if_pos hx] at hg
      rcases List.mem_cons.mp hg with h1 | h2
      · exact Or.inl h1
      · exact Or.inr (List.mem_cons_of_mem x h2)
    · rw [if_neg hx] at hg
      rcases List.mem_cons.mp hg with h1 | h2
      · exact Or.inr (h1 ▸ List.mem_cons_self x xs)
      · rcases ih h2 with h3 | h4
        · exact Or.inl h3
        · exact Or.inr (List.mem_cons_of_mem x h4)

lemma newHop_inv (ttl : Nat) : hopInv (NewHop ttl) :=
  ⟨le_refl 0, le_refl 0, by show (0 : ℚ) ≤ 100; norm_num⟩

lemma applyResult_inv (env : ApplyEnv) (hops : List Hop) (ttl : Nat)
    (res : Option ProbeResult) (h : ∀ g ∈ hops, hopInv g) :
    ∀ g ∈ (applyResult env hops ttl res).1, hopInv g := by
  intro g hg
  unfold applyResult at hg
  rcases mem_setHop _ _ _ _ hg with h1 | h2
  · subst h1
    apply applyToHop_inv
    cases hf : findHop hops ttl with
    | some hp => exact h hp (List.mem_of_find?_eq_some hf)
    | none => exact newHop_inv ttl
  · exact h g h2

lemma execOp_inv (env : ApplyEnv) (hops : List Hop) (op : CtrlOp)
    (h : ∀ g ∈ hops, hopInv g) : ∀ g ∈ execOp env hops op, hopInv g := by
  cases op with
  | applyRes ttl res => exact applyResult_inv env hops ttl res h
  | recomputeLoss ttl =>
    intro g hg
    simp only [execOp, List.mem_map] at hg
    obtain ⟨x, hx, rfl⟩ := hg
    by_cases hxt : x.TTL = ttl
    · rw [if_pos hxt]
      obtain ⟨h1, _, _⟩ := h x hx
      exact ⟨by rw [updateLoss_received, updateLoss_sent]; exact h1,
        (updateLoss_bounds _).1, (updateLoss_bounds _).2⟩
    · rw [if_neg hxt]
      exact h x hx

/-- Claim C2: in every hop-map state reachable by any interleaving of
applied probe results and loss recomputations, every Hop satisfies
Received <= Sent and Loss in [0,100]. -/
theorem C2_reachable_invariant (env : ApplyEnv) (ops : List CtrlOp) :
    ∀ g ∈ execOps env ops, hopInv g := by
  suffices h : ∀ (l : List CtrlOp) (hops : List Hop), (∀ g ∈ hops, hopInv g) →
      ∀ g ∈ l.foldl (execOp env) hops, hopInv g by
    exact h ops [] (by simp)
  intro l
  induction l with
  | nil =>
    intro hops h g hg
    exact h g hg
  | cons op rest ih =>
    intro hops h
    exact ih _ (execOp_inv env hops op h)

/-- The single-operation trace used by the C2 witness. -/
def c2ops : List CtrlOp := [CtrlOp.applyRes 1 none]

lemma c2_exec_eq : execOps {} c2ops
    = [{ TTL := 1, Lost := true, Stats := { Sent := 1, Loss := 100 } }] := by
  have h2 : ({ Sent := 1 } : HopStats).UpdateLoss
      = { Sent := 1, Loss := 100 } := by
    simp only [HopStats.UpdateLoss]
    norm_num
  calc execOps {} c2ops
      = [{ TTL := 1, Lost := true,
           Stats := ({ Sent := 1 } : HopStats).UpdateLoss }] := rfl
    _ = [{ TTL := 1, Lost := true, Stats := { Sent := 1, Loss := 100 } }] := by
        rw [h2]

/-- Witness for C2 on the one-timeout trace. -/
theorem C2_witness :
    hopInv { TTL := 1, Lost := true, Stats := { Sent := 1, Loss := 100 } } := by
  apply C2_reachable_invariant {} c2ops
  rw [c2_exec_eq]
  exact List.mem_singleton_self _

/-! ## Claim C8: geo resolver call discipline -/

/-- Fold a sequence of probe results into a single hop, collecting the
addresses passed to the geo resolver along the way. -/
def applySeq (env : ApplyEnv) (hop : Hop) :
    List (Option ProbeResult) → Hop × List Addr
  | [] => (hop, [])
  | r :: rest =>
    let out := applyToHop env hop r
    let out2 := applySeq env out.1 rest
    (out2.1, out.2 ++ out2.2)

/-- A probe result that keeps the hop at responder address `a`: it is
either not received (nil, timeout, or without an address) or received
from `a`. -/
def resAt (a : Addr) : Option ProbeResult → Prop
  | none => True
  | some r => r.ty = ResponseType.timeout ∨ r.ip = none ∨ r.ip = some a

lemma applyToHop_lost_eq (env : ApplyEnv) (hop : Hop) (res : Option ProbeResult)
    (hlost : resReceived res = false) :
    applyToHop env hop res
      = ({ hop with
            Lost := true
            Stats := ({ hop.Stats with Sent := hop.Stats.Sent + 1 }).UpdateLoss },
         []) := by
  cases res with
  | none => rfl
  | some r =>
    cases hip : r.ip with
    | none => simp only [applyToHop, hip]
    | some a =>
      have hty : r.ty = ResponseType.timeout := by
        simp only [resReceived, hip, Option.isSome_some, Bool.and_true,
          Bool.not_eq_false', beq_iff_eq] at hlost
        exact hlost
      simp only [applyToHop, hip, if_pos hty]

lemma applyToHop_success_calls (env : ApplyEnv) (f : Addr → Option Loc)
    (hop : Hop) (r : ProbeResult) (a : Addr) (l : Loc)
    (hres : env.resolver = some f) (hfa : f a = some l)
    (hip : r.ip = some a) (hty : r.ty ≠ ResponseType.timeout) :
    ((applyToHop env hop (some r)).1).IP = some a ∧
    (∀ b ∈ (applyToHop env hop (some r)).2, b = a) ∧
    (applyToHop env hop (some r)).2.length ≤ 1 ∧
    ((applyToHop env hop (some r)).1).Location ≠ none ∧
    (hop.IP = some a → hop.Location ≠ none →
      (applyToHop env hop (some r)).2 = [] ∧
      ((applyToHop env hop (some r)).1).Location = hop.Location) := by
  simp only [applyToHop, hip, if_neg hty, hres]
  split_ifs with h1 h2 h3 h4 h5 h6
  all_goals refine ⟨rfl, ?_, ?_, ?_, ?_⟩
  all_goals try intro b hb
  all_goals simp_all [hfa]
  all_goals intro hIP hLoc
  all_goals simp_all

/-- Counterexample environment for C8: a resolver that never returns a
location. -/
def c8env : ApplyEnv := { resolver := some fun _ => none }

/-- A received probe result from address 5. -/
def c8res : Option ProbeResult :=
  some { ttl := 1, seq := 1, ip := some 5, rtt := 1000,
         ty := ResponseType.timeExceeded }

/-- Counterexample for C8 as stated: with a resolver returning no
location, Resolve is called for address 5, the address does not change,
and the very next received result triggers a second Resolve call for
the same address. -/
theorem C8_counterexample :
    (applyToHop c8env (NewHop 1) c8res).2 = [5] ∧
    ((applyToHop c8env (NewHop 1) c8res).1).IP = some 5 ∧
    ((applyToHop c8env (NewHop 1) c8res).1).Location = none ∧
    (applyToHop c8env ((applyToHop c8env (NewHop 1) c8res).1) c8res).2 = [5] :=
  ⟨rfl, rfl, rfl, rfl⟩

lemma applySeq_stable (env : ApplyEnv) (f : Addr → Option Loc) (a : Addr)
    (l : Loc) (hres : env.resolver = some f) (hfa : f a = some l) :
    ∀ (rs : List (Option ProbeResult)) (hop : Hop),
      (∀ r ∈ rs, resAt a r) → hop.IP = some a → hop.Location ≠ none →
      (applySeq env hop rs).2 = [] := by
  intro rs
  induction rs with
  | nil =>
    intro hop _ _ _
    rfl
  | cons r rest ih =>
    intro hop hall hIP hLoc
    have hr := hall r (List.mem_cons_self r rest)
    have hrest := fun x hx => hall x (List.mem_cons_of_mem r hx)
    by_cases hrec : resReceived r = true
    · obtain ⟨r', rfl⟩ : ∃ r', r = some r' := by
        cases r with
        | none => simp [resReceived] at hrec
        | some r' => exact ⟨r', rfl⟩
      have hty : r'.ty ≠ ResponseType.timeout := by
        simp only [resReceived, Bool.and_eq_true, Bool.not_eq_true',
          beq_eq_false_iff_ne] at hrec
        exact hrec.1
      have hip : r'.ip = some a := by
        rcases hr with h | h | h
        · exact absurd h hty
        · exfalso
          simp [resReceived, h] at hrec
        · exact h
      obtain ⟨hIP', _, _, hLoc', hstable⟩ :=
        applyToHop_success_calls env f hop r' a l hres hfa hip hty
      obtain ⟨hcalls, hLocEq⟩ := hstable hIP hLoc
      show ((applyToHop env hop (some r')).2
        ++ (applySeq env (applyToHop env hop (some r')).1 rest).2) = []
      rw [hcalls, List.nil_append]
      exact ih _ hrest hIP' (by rw [hLocEq]; exact hLoc)
    · have hlost : resReceived r = false := by
        cases hrec2 : resReceived r
        · rfl
        · exact absurd hrec2 hrec
      rw [show applySeq env hop (r :: rest)
          = ((applySeq env (applyToHop env hop r).1 rest).1,
             (applyToHop env hop r).2
               ++ (applySeq env (applyToHop env hop r).1 rest).2) from rfl]
      rw [applyToHop_lost_eq env hop r hlost]
      simp only [List.nil_append]
      exact ih _ hrest hIP hLoc

lemma applyToHop_changed_location (env : ApplyEnv) (f : Addr → Option Loc)
    (hres : env.resolver = some f) (g : Hop) (r : ProbeResult) (b : Addr)
    (hip : r.ip = some b) (hty : r.ty ≠ ResponseType.timeout)
    (hchanged : g.IP ≠ some b) :
    ((applyToHop env g (some r)).1).Location = f b := by
  simp only [applyToHop, hip, if_neg hty, hres]
  split_ifs <;> simp_all

lemma applySeq_calls (env : ApplyEnv) (f : Addr → Option Loc) (a : Addr)
    (l : Loc) (hres : env.resolver = some f) (hfa : f a = some l) :
    ∀ (rs : List (Option ProbeResult)) (hop : Hop),
      (∀ r ∈ rs, resAt a r) →
      (applySeq env hop rs).2.length ≤ 1 ∧
      (∀ b ∈ (applySeq env hop rs).2, b = a) := by
  intro rs
  induction rs with
  | nil =>
    intro hop _
    exact ⟨by simp [applySeq], by simp [applySeq]⟩
  | cons r rest ih =>
    intro hop hall
    have hr := hall r (List.mem_cons_self r rest)
    have hrest := fun x hx => hall x (List.mem_cons_of_mem r hx)
    have hsplit : applySeq env hop (r :: rest)
        = ((applySeq env (applyToHop env hop r).1 rest).1,
           (applyToHop env hop r).2
             ++ (applySeq env (applyToHop env hop r).1 rest).2) := rfl
    by_cases hrec : resReceived r = true
    · obtain ⟨r', rfl⟩ : ∃ r', r = some r' := by
        cases r with
        | none => simp [resReceived] at hrec
        | some r' => exact ⟨r', rfl⟩
      have hty : r'.ty ≠ ResponseType.timeout := by
        simp only [resReceived, Bool.and_eq_true, Bool.not_eq_true',
          beq_eq_false_iff_ne] at hrec
        exact hrec.1
      have hip : r'.ip = some a := by
        rcases hr with h | h | h
        · exact absurd h hty
        · exfalso
          simp [resReceived, h] at hrec
        · exact h
      obtain ⟨hIP', hball, hlen1, hLoc', _⟩ :=
        applyToHop_success_calls env f hop r' a l hres hfa hip hty
      have hrestnil : (applySeq env (applyToHop env hop (some r')).1 rest).2 = [] :=
        applySeq_stable env f a l hres hfa rest _ hrest hIP' hLoc'
      rw [hsplit]
      constructor
      · simp only [hrestnil, List.append_nil]
        exact hlen1
      · intro b hb
        simp only [hrestnil, List.append_nil] at hb
        exact hball b hb
    · have hlost : resReceived r = false := by
        cases hrec2 : resReceived r
        · rfl
        · exact absurd hrec2 hrec
      rw [hsplit, applyToHop_lost_eq env hop r hlost]
      simp only [List.nil_append]
      exact ih _ hrest

/-- Claim C8 amended: with a resolver that returns a location for the
current address, Resolve is called at most once per distinct responder
address of a Hop (no further call until the address changes), and an
address change clears the stored location, which is then re-resolved;
when the resolver returns no location the call is repeated on later
received results at the same address (see the counterexample). -/
theorem C8_resolver_calls (env : ApplyEnv) (f : Addr → Option Loc) (a : Addr)
    (l : Loc) (hop : Hop) (rs : List (Option ProbeResult))
    (hres : env.resolver = some f) (hfa : f a = some l)
    (hall : ∀ r ∈ rs, resAt a r) :
    (applySeq env hop rs).2.length ≤ 1 ∧
    (∀ b ∈ (applySeq env hop rs).2, b = a) ∧
    (hop.IP = some a → hop.Location ≠ none → (applySeq env hop rs).2 = []) ∧
    (∀ (g : Hop) (r : ProbeResult) (b : Addr), r.ip = some b →
      r.ty ≠ ResponseType.timeout → g.IP ≠ some b →
      ((applyToHop env g (some r)).1).Location = f b) := by
  obtain ⟨h1, h2⟩ := applySeq_calls env f a l hres hfa rs hop hall
  exact ⟨h1, h2, applySeq_stable env f a l hres hfa rs hop hall,
    fun g r b hip hty hch =>
      applyToHop_changed_location env f hres g r b hip hty hch⟩

/-- The resolver used by the C8 witness: it always returns location 3. -/
def c8f : Addr → Option Loc := fun _ => some 3

/-- Witness environment for C8. -/
def c8wenv : ApplyEnv := { resolver := some c8f }

/-- Two received results at address 5. -/
def c8rs : List (Option ProbeResult) := [c8res, c8res]

/-- Witness for the amended C8: two received results at address 5 with
a location-returning resolver trigger at most one Resolve call. -/
theorem C8_witness : (applySeq c8wenv (NewHop 1) c8rs).2.length ≤ 1 :=
  (C8_resolver_calls c8wenv c8f 5 3 (NewHop 1) c8rs rfl rfl
    (fun r hr => by
      rcases List.mem_cons.mp hr with h1 | h1
      · subst h1
        exact Or.inr (Or.inr rfl)
      · rcases List.mem_cons.mp h1 with h2 | h2
        · subst h2
          exact Or.inr (Or.inr rfl)
        · exact absurd h2 (List.not_mem_nil r))).1

/-! ## Claim C5: Echo-mode reply classification -/

/-- Whether a type tag is an Echo Reply of either family. -/
def isEchoReplyTy : ICMPTy → Bool
  | ICMPTy.v4EchoReply | ICMPTy.v6EchoReply => true
  | _ => false

/-- Whether a type tag is a Time-Exceeded message of either family. -/
def isTimeExceededTy : ICMPTy → Bool
  | ICMPTy.v4TimeExceeded | ICMPTy.v6TimeExceeded => true
  | _ => false

/-- Acceptance condition (a) of the claim: an Echo Reply whose
identifier is the prober process-derived id and whose sequence equals
the probe sequence number. -/
def echoReplyAccepts (p : ICMPProberS) (m : ICMPMsg) (seq : Int) : Bool :=
  isEchoReplyTy m.ty &&
    (match m.body with
     | ICMPBody.echo i s _ => i == p.id && s == seq
     | _ => false)

/-- How many leading bytes of the quoted fragment are skipped before
re-parsing: the parsed header length for IPv4, a fixed 40 bytes for
IPv6. -/
def skipLen (pe : ParseEnv) (p : ICMPProberS) (frag : List Nat) : Option Nat :=
  if p.ipVersion = 4 then
    match pe.parseHeader4 frag with
    | some hLen => some hLen.toNat
    | none => none
  else some 40

/-- The claim wording of the quoted-fragment check: after skipping one
IP header the fragment re-parses to an Echo message with matching
identifier and sequence. -/
def quotedEchoMatches (pe : ParseEnv) (p : ICMPProberS) (proto : Nat)
    (frag : List Nat) (seq : Int) : Bool :=
  match skipLen pe p frag with
  | none => false
  | some k =>
    match pe.parseICMP proto (frag.drop k) with
    | none => false
    | some inner =>
      match inner.body with
      | ICMPBody.echo i s _ => i == p.id && s == seq
      | _ => false

/-- Acceptance condition (b) of the claim: a Time-Exceeded message
whose embedded original-datagram fragment re-parses to a matching Echo
message. -/
def timeExceededAccepts (pe : ParseEnv) (p : ICMPProberS) (proto : Nat)
    (m : ICMPMsg) (seq : Int) : Bool :=
  isTimeExceededTy m.ty &&
    (match m.body with
     | ICMPBody.timeExceeded frag => quotedEchoMatches pe p proto frag seq
     | _ => false)

lemma matchesQuoted_imp (pe : ParseEnv) (p : ICMPProberS) (proto : Nat)
    (body : ICMPBody) (seq : Int)
    (h : matchesQuoted pe p proto body seq = true) :
    ∃ frag, body = ICMPBody.timeExceeded frag ∧
      quotedEchoMatches pe p proto frag seq = true := by
  cases body with
  | timeExceeded frag =>
    refine ⟨frag, rfl, ?_⟩
    simp only [matchesQuoted] at h
    split at h
    · exact absurd h (by simp)
    · split at h
      · split at h
        · exact absurd h (by simp)
        · split at h
          · exact absurd h (by simp)
          · rename_i hLen hh _hg
            have hskip : skipLen pe p frag = some hLen.toNat := by
              simp [skipLen, *]
            cases hpi : pe.parseICMP proto (List.drop hLen.toNat frag) with
            | none =>
              rw [hpi] at h
              simp at h
            | some inner =>
              rw [hpi] at h
              simp only [quotedEchoMatches, hskip, hpi]
              cases hb : inner.body <;> simp [hb] at h ⊢ <;> exact h
      · split at h
        · exact absurd h (by simp)
        · split at h
          · exact absurd h (by simp)
          · have hskip : skipLen pe p frag = some 40 := by
              simp [skipLen, *]
            cases hpi : pe.parseICMP proto (List.drop 40 frag) with
            | none =>
              rw [hpi] at h
              simp at h
            | some inner =>
              rw [hpi] at h
              simp only [quotedEchoMatches, hskip, hpi]
              cases hb : inner.body <;> simp [hb] at h ⊢ <;> exact h
  | echo i s d => exact absurd h (by simp [matchesQuoted])
  | dstUnreach d => exact absurd h (by simp [matchesQuoted])
  | raw d => exact absurd h (by simp [matchesQuoted])

lemma classifyReply_eq (pe : ParseEnv) (p : ICMPProberS) (proto : Nat)
    (m : ICMPMsg) (seq : Int) :
    classifyReply pe p proto (some m) seq
      = (if echoReplyAccepts p m seq then ResponseType.echoReply
         else if isTimeExceededTy m.ty
             ∧ matchesQuoted pe p proto m.body seq then
           ResponseType.timeExceeded
         else ResponseType.timeout) := by
  rcases m with ⟨ty, code, body⟩
  cases ty <;> cases body <;>
    simp [classifyReply, echoReplyAccepts, isEchoReplyTy,
      isTimeExceededTy, Bool.and_eq_true, beq_iff_eq]

/-- Claim C5: in Echo mode, classifyReply accepts a message (as
EchoReply or TimeExceeded) only if it is (a) an Echo Reply with
matching identifier and sequence, or (b) a Time-Exceeded message whose
quoted fragment, after skipping one IP header, re-parses to a matching
Echo message; every other message is classified Timeout. -/
theorem C5_classifyReply_spec (pe : ParseEnv) (p : ICMPProberS) (proto : Nat)
    (rm : Option ICMPMsg) (seq : Int) :
    (classifyReply pe p proto rm seq = ResponseType.echoReply →
      ∃ m, rm = some m ∧ echoReplyAccepts p m seq = true) ∧
    (classifyReply pe p proto rm seq = ResponseType.timeExceeded →
      ∃ m, rm = some m ∧ timeExceededAccepts pe p proto m seq = true) ∧
    (∀ m, rm = some m → echoReplyAccepts p m seq = false →
      timeExceededAccepts pe p proto m seq = false →
      classifyReply pe p proto rm seq = ResponseType.timeout) := by
  cases rm with
  | none =>
    refine ⟨fun h => absurd h (by simp [classifyReply]),
      fun h => absurd h (by simp [classifyReply]),
      fun m hm _ _ => by cases hm⟩
  | some m =>
    rw [classifyReply_eq]
    by_cases h1 : echoReplyAccepts p m seq = true
    · rw [if_pos h1]
      refine ⟨fun _ => ⟨m, rfl, h1⟩, fun h => absurd h (by simp), ?_⟩
      intro m' hm' hacc _
      injection hm' with hmm
      subst hmm
      exact absurd h1 (by simp [hacc])
    · rw [if_neg h1]
      by_cases h2 : isTimeExceededTy m.ty = true
          ∧ matchesQuoted pe p proto m.body seq = true
      · rw [if_pos h2]
        obtain ⟨frag, hfrag, hq⟩ :=
          matchesQuoted_imp pe p proto m.body seq h2.2
        have hteacc : timeExceededAccepts pe p proto m seq = true := by
          simp [timeExceededAccepts, h2.1, hfrag, hq]
        refine ⟨fun h => absurd h (by simp), fun _ => ⟨m, rfl, hteacc⟩, ?_⟩
        intro m' hm' _ hte
        injection hm' with hmm
        subst hmm
        exact absurd hteacc (by simp [hte])
      · rw [if_neg h2]
        exact ⟨fun h => absurd h (by simp), fun h => absurd h (by simp),
          fun m' hm' _ _ => rfl⟩

/-- Witness parse environment: the IPv4 header length parses as 20,
the IPv6 header always parses, the inner parse yields nothing. -/
def c5pe : ParseEnv :=
  { parseHeader4 := fun _ => some 20
    parseHeader6Ok := fun _ => true
    parseICMP := fun _ _ => none }

/-- Witness prober identity for C5. -/
def c5p : ICMPProberS := { ipVersion := 4, id := 7 }

/-- An Echo Reply carrying a wrong identifier. -/
def c5bad : ICMPMsg :=
  { ty := ICMPTy.v4EchoReply, code := 0, body := ICMPBody.echo 8 5 [] }

/-- Witness for C5: a reply with a non-matching identifier is ignored
(classified Timeout). -/
theorem C5_witness : classifyReply c5pe c5p 1 (some c5bad) 5
    = ResponseType.timeout :=
  (C5_classifyReply_spec c5pe c5p 1 (some c5bad) 5).2.2 c5bad rfl
    (by decide) (by decide)

/-! ## Claim C6: Datagram-mode reply classification -/

/-- Whether a type tag is a Destination-Unreachable message of either
family. -/
def isDestUnreachTy : ICMPTy → Bool
  | ICMPTy.v4DestUnreach | ICMPTy.v6DestUnreach => true
  | _ => false

/-- The quoted original-datagram data carried by a message body. -/
def bodyQuotedData : ICMPBody → Option (List Nat)
  | ICMPBody.timeExceeded d => some d
  | ICMPBody.dstUnreach d => some d
  | _ => none

/-- The destination port of the quoted UDP header recovered from the
embedded fragment: skip the quoted IP header and read bytes 2-3 of the
quoted transport header, big endian. -/
def quotedDstPort (pe : ParseEnv) (ipVersion : Nat) (frag : List Nat) :
    Option Int :=
  match extractQuotedTransport pe frag ipVersion with
  | none => none
  | some udph =>
    if udph.length < 8 then none
    else
      let dst : Int := (udph.getD 2 0 : Nat) * 256 + (udph.getD 3 0 : Nat)
      some dst

lemma neg_tmod_eq (a b : Int) : (-a).tmod b = -(a.tmod b) := by
  simp [Int.tmod_def]
  ring

lemma udpDestPort_pos (seq : Int) : 0 < udpDestPort seq := by
  unfold udpDestPort
  rcases le_or_lt 0 seq with h | h
  · have h1 : 0 ≤ Int.tmod seq 10000 := Int.tmod_nonneg 10000 h
    omega
  · have h2 : Int.tmod (-seq) 10000 < 10000 :=
      Int.tmod_lt_of_pos (-seq) (by norm_num)
    rw [neg_tmod_eq] at h2
    omega

lemma quotedDstPort_eq (pe : ParseEnv) (ipv : Nat) (frag : List Nat)
    (udph : List Nat)
    (hext : extractQuotedTransport pe frag ipv = some udph)
    (hlen : ¬ udph.length < 8) :
    quotedDstPort pe ipv frag
      = some ((udph.getD 2 0 : Nat) * 256 + (udph.getD 3 0 : Nat) : Int) := by
  simp only [quotedDstPort, hext, hlen, if_false]

lemma matchesQuotedUDPData_imp (pe : ParseEnv) (p : UDPProberS)
    (dat : List Nat) (lp dp : Int) (hdp : dp ≠ 0)
    (h : matchesQuotedUDP.matchesQuotedUDPData pe p dat lp dp = true) :
    quotedDstPort pe p.ipVersion dat = some dp := by
  simp only [matchesQuotedUDP.matchesQuotedUDPData] at h
  split at h
  · exact absurd h (by simp)
  · split at h
    · exact absurd h (by simp)
    · split at h
      · exact absurd h (by simp)
      · split at h
        · exact absurd h (by simp)
        · rename_i udph hext hlen8 hc
          have hdst : ((udph.getD 2 0 : Nat) * 256 + (udph.getD 3 0 : Nat) : Int)
              = dp := by
            by_contra hne
            exact hc ⟨hdp, hne⟩
          rw [quotedDstPort_eq pe p.ipVersion dat udph hext hlen8, hdst]

lemma matchesQuotedUDP_imp (pe : ParseEnv) (p : UDPProberS) (body : ICMPBody)
    (lp dp : Int) (hdp : dp ≠ 0)
    (h : matchesQuotedUDP pe p body lp dp = true) :
    ∃ frag, bodyQuotedData body = some frag ∧
      quotedDstPort pe p.ipVersion frag = some dp := by
  cases body with
  | timeExceeded d =>
    exact ⟨d, rfl, matchesQuotedUDPData_imp pe p d lp dp hdp h⟩
  | dstUnreach d =>
    exact ⟨d, rfl, matchesQuotedUDPData_imp pe p d lp dp hdp h⟩
  | echo i s d => exact absurd h (by simp [matchesQuotedUDP])
  | raw d => exact absurd h (by simp [matchesQuotedUDP])

/-- Claim C6: in Datagram mode, classifyUDPReply accepts a
Time-Exceeded or Destination-Unreachable message only if the quoted
destination port recovered from the embedded fragment equals the
destination port the probe derived from the sequence number; an
accepted Destination-Unreachable with a port-unreachable code (IPv4
code 3, IPv6 code 4) is classified EchoReply, any other accepted
Destination-Unreachable is classified DestUnreach, and an accepted
Time-Exceeded is classified TimeExceeded; a non-accepted message reads
as Timeout. -/
theorem C6_classifyUDPReply_spec (pe : ParseEnv) (p : UDPProberS)
    (rm : Option ICMPMsg) (localPort seq : Int) :
    ((classifyUDPReply pe p rm localPort (udpDestPort seq)).2 = true →
      ∃ m frag, rm = some m ∧
        (isTimeExceededTy m.ty = true ∨ isDestUnreachTy m.ty = true) ∧
        bodyQuotedData m.body = some frag ∧
        quotedDstPort pe p.ipVersion frag = some (udpDestPort seq) ∧
        (classifyUDPReply pe p rm localPort (udpDestPort seq)).1
          = (if isTimeExceededTy m.ty then ResponseType.timeExceeded
             else if (m.ty = ICMPTy.v4DestUnreach ∧ m.code = 3)
                 ∨ (m.ty = ICMPTy.v6DestUnreach ∧ m.code = 4) then
               ResponseType.echoReply
             else ResponseType.destUnreach)) ∧
    ((classifyUDPReply pe p rm localPort (udpDestPort seq)).2 = false →
      (classifyUDPReply pe p rm localPort (udpDestPort seq)).1
        = ResponseType.timeout) := by
  have hdp : udpDestPort seq ≠ 0 := (udpDestPort_pos seq).ne'
  cases rm with
  | none => exact ⟨fun h => absurd h (by simp [classifyUDPReply]), fun _ => rfl⟩
  | some m =>
    rcases m with ⟨ty, code, body⟩
    cases ty with
    | v4TimeExceeded =>
      by_cases hm : matchesQuotedUDP pe p body localPort (udpDestPort seq) = true
      · obtain ⟨frag, hfrag, hport⟩ :=
          matchesQuotedUDP_imp pe p body localPort (udpDestPort seq) hdp hm
        refine ⟨fun _ => ⟨_, frag, rfl, Or.inl rfl, hfrag, hport, ?_⟩, ?_⟩
        · simp [classifyUDPReply, hm, isTimeExceededTy]
        · intro hfalse
          simp [classifyUDPReply, hm] at hfalse
      · refine ⟨fun htrue => ?_, fun _ => ?_⟩
        · simp [classifyUDPReply, hm] at htrue
        · simp [classifyUDPReply, hm]
    | v6TimeExceeded =>
      by_cases hm : matchesQuotedUDP pe p body localPort (udpDestPort seq) = true
      · obtain ⟨frag, hfrag, hport⟩ :=
          matchesQuotedUDP_imp pe p body localPort (udpDestPort seq) hdp hm
        refine ⟨fun _ => ⟨_, frag, rfl, Or.inl rfl, hfrag, hport, ?_⟩, ?_⟩
        · simp [classifyUDPReply, hm, isTimeExceededTy]
        · intro hfalse
          simp [classifyUDPReply, hm] at hfalse
      · refine ⟨fun htrue => ?_, fun _ => ?_⟩
        · simp [classifyUDPReply, hm] at htrue
        · simp [classifyUDPReply, hm]
    | v4DestUnreach =>
      by_cases hm : matchesQuotedUDP pe p body localPort (udpDestPort seq) = true
      · obtain ⟨frag, hfrag, hport⟩ :=
          matchesQuotedUDP_imp pe p body localPort (udpDestPort seq) hdp hm
        refine ⟨fun _ => ⟨_, frag, rfl, Or.inr rfl, hfrag, hport, ?_⟩, ?_⟩
        · by_cases hcode : code = 3
          · simp [classifyUDPReply, hm, isPortUnreachable, isTimeExceededTy,
              hcode]
          · simp [classifyUDPReply, hm, isPortUnreachable, isTimeExceededTy,
              hcode]
        · intro hfalse
          simp [classifyUDPReply, hm] at hfalse
          split at hfalse <;> simp_all
      · refine ⟨fun htrue => ?_, fun _ => ?_⟩
        · simp [classifyUDPReply, hm] at htrue
        · simp [classifyUDPReply, hm]
    | v6DestUnreach =>
      by_cases hm : matchesQuotedUDP pe p body localPort (udpDestPort seq) = true
      · obtain ⟨frag, hfrag, hport⟩ :=
          matchesQuotedUDP_imp pe p body localPort (udpDestPort seq) hdp hm
        refine ⟨fun _ => ⟨_, frag, rfl, Or.inr rfl, hfrag, hport, ?_⟩, ?_⟩
        · by_cases hcode : code = 4
          · simp [classifyUDPReply, hm, isPortUnreachable, isTimeExceededTy,
              hcode]
          · simp [classifyUDPReply, hm, isPortUnreachable, isTimeExceededTy,
              hcode]
        · intro hfalse
          simp [classifyUDPReply, hm] at hfalse
          split at hfalse <;> simp_all
      · refine ⟨fun htrue => ?_, fun _ => ?_⟩
        · simp [classifyUDPReply, hm] at htrue
        · simp [classifyUDPReply, hm]
    | v4EchoReply =>
      exact ⟨fun h => absurd h (by simp [classifyUDPReply]), fun _ => rfl⟩
    | v6EchoReply =>
      exact ⟨fun h => absurd h (by simp [classifyUDPReply]), fun _ => rfl⟩
    | other fam t =>
      exact ⟨fun h => absurd h (by simp [classifyUDPReply]), fun _ => rfl⟩

/-- Witness prober identity for C6. -/
def c6p : UDPProberS := { ipVersion := 4 }

/-- A message of a type the UDP prober never accepts. -/
def c6msg : ICMPMsg :=
  { ty := ICMPTy.other 4 99, code := 0, body := ICMPBody.raw [] }

/-- Witness for C6: a message that is not accepted reads as Timeout so
the receive loop continues. -/
theorem C6_witness :
    (classifyUDPReply c5pe c6p (some c6msg) 0 (udpDestPort 7)).1
      = ResponseType.timeout :=
  (C6_classifyUDPReply_spec c5pe c6p (some c6msg) 0 7).2 (by decide)

/-! ## Claim C3: TTL order and early stop within a round -/

lemma findHop_ttl (hops : List Hop) (t : Nat) (h : Hop)
    (hf : findHop hops t = some h) : h.TTL = t := by
  have hp := List.find?_some hf
  simpa using hp

lemma applyToHop_TTL (env : ApplyEnv) (hop : Hop) (res : Option ProbeResult) :
    ((applyToHop env hop res).1).TTL = hop.TTL := by
  cases res with
  | none => rfl
  | some r =>
    cases hip : r.ip with
    | none => simp only [applyToHop, hip]
    | some a =>
      by_cases hty : r.ty = ResponseType.timeout
      · simp only [applyToHop, hip, if_pos hty]
      · simp only [applyToHop, hip, if_neg hty]
        cases env.resolver <;> split_ifs <;> rfl

lemma findHop_cons (g : Hop) (gs : List Hop) (t : Nat) :
    findHop (g :: gs) t = if g.TTL = t then some g else findHop gs t := by
  by_cases h : g.TTL = t
  · simp [findHop, List.find?_cons, h]
  · simp [findHop, List.find?_cons, h]

lemma findHop_setHop (hops : List Hop) (ttl : Nat) (h : Hop) (t : Nat)
    (hTTL : h.TTL = ttl) :
    findHop (setHop hops ttl h) t
      = if t = ttl then some h else findHop hops t := by
  induction hops with
  | nil =>
    show findHop [h] t = if t = ttl then some h else none
    rw [findHop_cons]
    by_cases ht : t = ttl
    · rw [if_pos (hTTL.trans ht.symm), if_pos ht]
    · rw [if_neg (by rw [hTTL]; exact fun hc => ht hc.symm), if_neg ht]
      rfl
  | cons g gs ih =>
    by_cases hg : g.TTL = ttl
    · rw [show setHop (g :: gs) ttl h = h :: gs from by simp [setHop, hg]]
      rw [findHop_cons, findHop_cons]
      by_cases ht : t = ttl
      · rw [if_pos (hTTL.trans ht.symm), if_pos ht]
      · rw [if_neg (by rw [hTTL]; exact fun hc => ht hc.symm), if_neg ht,
          if_neg (by rw [hg]; exact fun hc => ht hc.symm)]
    · rw [show setHop (g :: gs) ttl h = g :: setHop gs ttl h from by
        simp [setHop, hg]]
      rw [findHop_cons, ih, findHop_cons]
      by_cases hgt : g.TTL = t
      · have ht : ¬ t = ttl := fun hc => hg (hgt.trans hc)
        rw [if_pos hgt, if_neg ht, if_pos hgt]
      · rw [if_neg hgt]
        by_cases ht : t = ttl
        · rw [if_pos ht, if_pos ht]
        · rw [if_neg ht, if_neg ht, if_neg hgt]

lemma findHop_applyResult (env : ApplyEnv) (hops : List Hop) (ttl : Nat)
    (res : Option ProbeResult) (t : Nat) :
    findHop ((applyResult env hops ttl res).1) t
      = if t = ttl then
          some ((applyToHop env ((findHop hops ttl).getD (NewHop ttl)) res).1)
        else findHop hops t := by
  show findHop (setHop hops ttl
    ((applyToHop env ((findHop hops ttl).getD (NewHop ttl)) res).1)) t = _
  apply findHop_setHop
  rw [applyToHop_TTL]
  cases hf : findHop hops ttl with
  | some hp => exact findHop_ttl hops ttl hp hf
  | none => rfl

lemma runTTLs_fatal_eq (cfg : RunCfg) (env : RunEnv) (round rem ttl : Nat)
    (st : CtrlState) (e : GoErr)
    (hpo : env.probe ttl (seqNum cfg.maxHops round ttl)
      = ProbeOutcome.fatal e) :
    runTTLs cfg env round (rem + 1) ttl st
      = RoundOut.fatal e st [errEvent e] [] := by
  simp only [runTTLs, hpo]

lemma runTTLs_echo_eq (cfg : RunCfg) (env : RunEnv) (round rem ttl : Nat)
    (st : CtrlState) (res : Option ProbeResult)
    (hpo : env.probe ttl (seqNum cfg.maxHops round ttl) = ProbeOutcome.ok res)
    (hecho : resIsEchoReply res = true) :
    runTTLs cfg env round (rem + 1) ttl st
      = RoundOut.finished ⟨(applyResult env.applyEnv st.hops ttl res).1⟩
          [hopUpdatedEvent ttl round] [(ttl, res)] := by
  simp only [runTTLs, hpo, hecho, if_true]

lemma runTTLs_noecho_eq (cfg : RunCfg) (env : RunEnv) (round rem ttl : Nat)
    (st : CtrlState) (res : Option ProbeResult)
    (hpo : env.probe ttl (seqNum cfg.maxHops round ttl) = ProbeOutcome.ok res)
    (hecho : resIsEchoReply res = false) :
    runTTLs cfg env round (rem + 1) ttl st
      = RoundOut.push (hopUpdatedEvent ttl round) (ttl, res)
          (runTTLs cfg env round rem (ttl + 1)
            ⟨(applyResult env.applyEnv st.hops ttl res).1⟩) := by
  simp only [runTTLs, hpo, hecho, Bool.false_eq_true, if_false]

lemma roundOut_push_iss (ev : Event) (pr : Nat × Option ProbeResult)
    (out : RoundOut) : (RoundOut.push ev pr out).iss = pr :: out.iss := by
  cases out <;> rfl

lemma roundOut_push_state (ev : Event) (pr : Nat × Option ProbeResult)
    (out : RoundOut) : (RoundOut.push ev pr out).state = out.state := by
  cases out <;> rfl

lemma runTTLs_spec (cfg : RunCfg) (env : RunEnv) (round : Nat) :
    ∀ (rem ttl : Nat) (st : CtrlState),
      ((runTTLs cfg env round rem ttl st).iss.map Prod.fst
          = List.range' ttl (runTTLs cfg env round rem ttl st).iss.length) ∧
      (∀ pr ∈ (runTTLs cfg env round rem ttl st).iss,
        resIsEchoReply pr.2 = true →
        ∀ qr ∈ (runTTLs cfg env round rem ttl st).iss, qr.1 ≤ pr.1) ∧
      (∀ t, findHop ((runTTLs cfg env round rem ttl st).state).hops t ≠ none →
        findHop st.hops t ≠ none
          ∨ t ∈ (runTTLs cfg env round rem ttl st).iss.map Prod.fst) ∧
      (∀ t, t ∉ (runTTLs cfg env round rem ttl st).iss.map Prod.fst →
        findHop ((runTTLs cfg env round rem ttl st).state).hops t
          = findHop st.hops t) ∧
      (∀ t, findHop st.hops t ≠ none →
        findHop ((runTTLs cfg env round rem ttl st).state).hops t ≠ none) := by
  intro rem
  induction rem with
  | zero =>
    intro ttl st
    exact ⟨rfl, by simp [runTTLs, RoundOut.iss], fun t ht => Or.inl ht,
      fun t _ => rfl, fun t ht => ht⟩
  | succ rem ih =>
    intro ttl st
    cases hpo : env.probe ttl (seqNum cfg.maxHops round ttl) with
    | fatal e =>
      rw [runTTLs_fatal_eq cfg env round rem ttl st e hpo]
      exact ⟨rfl, by simp [RoundOut.iss], fun t ht => Or.inl ht, fun t _ => rfl,
        fun t ht => ht⟩
    | ok res =>
      have happ : ∀ t, findHop ((applyResult env.applyEnv st.hops ttl res).1) t
          = if t = ttl then
              some ((applyToHop env.applyEnv
                ((findHop st.hops ttl).getD (NewHop ttl)) res).1)
            else findHop st.hops t :=
        fun t => findHop_applyResult env.applyEnv st.hops ttl res t
      by_cases hecho : resIsEchoReply res = true
      · rw [runTTLs_echo_eq cfg env round rem ttl st res hpo hecho]
        refine ⟨rfl, ?_, ?_, ?_, ?_⟩
        · intro pr hpr _ qr hqr
          simp only [RoundOut.iss, List.mem_singleton] at hpr hqr
          rw [hpr, hqr]
        · intro t ht
          simp only [RoundOut.state] at ht
          rw [happ t] at ht
          by_cases h : t = ttl
          · exact Or.inr (by simp [RoundOut.iss, h])
          · rw [if_neg h] at ht
            exact Or.inl ht
        · intro t hnot
          simp only [RoundOut.iss, List.map_cons, List.map_nil,
            List.mem_singleton] at hnot
          simp only [RoundOut.state]
          rw [happ t, if_neg hnot]
        · intro t ht
          simp only [RoundOut.state]
          rw [happ t]
          by_cases h : t = ttl
          · simp [h]
          · rw [if_neg h]
            exact ht
      · have hecho' : resIsEchoReply res = false := by
          cases hx : resIsEchoReply res
          · rfl
          · exact absurd hx hecho
        rw [runTTLs_noecho_eq cfg env round rem ttl st res hpo hecho']
        obtain ⟨iha, ihb, ihc, ihd, ihe⟩ :=
          ih (ttl + 1) ⟨(applyResult env.applyEnv st.hops ttl res).1⟩
        rw [roundOut_push_iss, roundOut_push_state]
        set rec := runTTLs cfg env round rem (ttl + 1)
          ⟨(applyResult env.applyEnv st.hops ttl res).1⟩ with hrec
        refine ⟨?_, ?_, ?_, ?_, ?_⟩
        · simp only [List.map_cons, iha, List.length_cons]
          rw [List.range'_succ]
        · intro pr hpr hprecho qr hqr
          rcases List.mem_cons.mp hpr with h1 | h1
          · rw [h1] at hprecho
            exact absurd hprecho (by simp [hecho'])
          · rcases List.mem_cons.mp hqr with h2 | h2
            · rw [h2]
              have hpr1 : pr.1 ∈ rec.iss.map Prod.fst :=
                List.mem_map_of_mem Prod.fst h1
              rw [iha] at hpr1
              have := (List.mem_range'_1.mp hpr1).1
              omega
            · exact ihb pr h1 hprecho qr h2
        · intro t ht
          rcases ihc t ht with h1 | h1
          · rw [happ t] at h1
            by_cases h : t = ttl
            · exact Or.inr (by simp [h])
            · rw [if_neg h] at h1
              exact Or.inl h1
          · exact Or.inr (by simp only [List.map_cons]; exact List.mem_cons_of_mem _ h1)
        · intro t hnot
          simp only [List.map_cons, List.mem_cons, not_or] at hnot
          rw [ihd t hnot.2, happ t, if_neg hnot.1]
        · intro t ht
          apply ihe
          rw [happ t]
          by_cases h : t = ttl
          · simp [h]
          · rw [if_neg h]
            exact ht

/-- Claim C3: within a round the Controller issues probes and applies
results in strictly increasing TTL order starting at TTL 1 (the issued
TTLs are 1, 2, ...); once an EchoReply is observed no probe is issued
at any higher TTL in that round; a Hop is created by the round only at
an issued TTL, so no Hop above the first replying TTL appears; and Hops
recorded at other TTLs by earlier rounds are neither removed nor
changed. -/
theorem C3_round_ttl_order (cfg : RunCfg) (env : RunEnv) (round : Nat)
    (st : CtrlState) :
    ((runRound cfg env round st).iss.map Prod.fst
        = List.range' 1 (runRound cfg env round st).iss.length) ∧
    (∀ pr ∈ (runRound cfg env round st).iss, resIsEchoReply pr.2 = true →
      ∀ qr ∈ (runRound cfg env round st).iss, qr.1 ≤ pr.1) ∧
    (∀ t, findHop ((runRound cfg env round st).state).hops t ≠ none →
      findHop st.hops t ≠ none
        ∨ t ∈ (runRound cfg env round st).iss.map Prod.fst) ∧
    (∀ t, t ∉ (runRound cfg env round st).iss.map Prod.fst →
      findHop ((runRound cfg env round st).state).hops t = findHop st.hops t) ∧
    (∀ t, findHop st.hops t ≠ none →
      findHop ((runRound cfg env round st).state).hops t ≠ none) :=
  runTTLs_spec cfg env round cfg.maxHops 1 st

/-- Witness configuration for C3: three hops, one round. -/
def c3cfg : RunCfg := ⟨3, 1⟩

/-- Witness probe oracle for C3: TTL 2 answers with an EchoReply,
every other TTL with a TimeExceeded from an intermediate address. -/
def c3probe (ttl _seq : Nat) : ProbeOutcome :=
  if ttl = 2 then
    ProbeOutcome.ok (some
      { ttl := ttl
        seq := 0
        ip := some 2
        rtt := 5
        ty := ResponseType.echoReply })
  else
    ProbeOutcome.ok (some
      { ttl := ttl
        seq := 0
        ip := some 1
        rtt := 5
        ty := ResponseType.timeExceeded })

/-- Witness run environment for C3. -/
def c3env : RunEnv := { resolveOutcome := Except.ok 0, probe := c3probe }

/-- Witness state for C3 with an earlier-round hop at TTL 9. -/
def c3st : CtrlState := ⟨[NewHop 9]⟩

/-- Witness for C3: the round stops at TTL 2 (the EchoReply) and the
earlier-round hop at TTL 9, not issued this round, is untouched. -/
theorem C3_witness :
    findHop ((runRound c3cfg c3env 0 c3st).state).hops 9
      = findHop c3st.hops 9 :=
  (C3_round_ttl_order c3cfg c3env 0 c3st).2.2.2.1 9 (by decide)

/-! ## Claim C1: Run under external cancellation -/

lemma runTTLs_noFatal (cfg : RunCfg) (env : RunEnv) (round : Nat)
    (hp : ∀ t s, (env.probe t s).isOk = true) :
    ∀ (rem ttl : Nat) (st : CtrlState),
      ∃ st2 evs iss, runTTLs cfg env round rem ttl st
        = RoundOut.finished st2 evs iss ∧
        ∀ e ∈ evs, e.ty = EventTy.hopUpdated := by
  intro rem
  induction rem with
  | zero =>
    intro ttl st
    exact ⟨st, [], [], rfl, by simp⟩
  | succ rem ih =>
    intro ttl st
    cases hpo : env.probe ttl (seqNum cfg.maxHops round ttl) with
    | fatal e =>
      have hok := hp ttl (seqNum cfg.maxHops round ttl)
      rw [hpo] at hok
      exact absurd hok (by simp [ProbeOutcome.isOk])
    | ok res =>
      by_cases hecho : resIsEchoReply res = true
      · rw [runTTLs_echo_eq cfg env round rem ttl st res hpo hecho]
        refine ⟨_, _, _, rfl, ?_⟩
        intro e he
        simp only [List.mem_singleton] at he
        rw [he]
        rfl
      · have hecho' : resIsEchoReply res = false := by
          cases hx : resIsEchoReply res
          · rfl
          · exact absurd hx hecho
        rw [runTTLs_noecho_eq cfg env round rem ttl st res hpo hecho']
        obtain ⟨st2, evs, iss, heq, hevs⟩ :=
          ih (ttl + 1) ⟨(applyResult env.applyEnv st.hops ttl res).1⟩
        rw [heq]
        refine ⟨st2, hopUpdatedEvent ttl round :: evs, (ttl, res) :: iss,
          rfl, ?_⟩
        intro e he
        rcases List.mem_cons.mp he with h | h
        · rw [h]
          rfl
        · exact hevs e h

lemma roundActive_mono (cfg : RunCfg) (r1 r2 : Nat) (h12 : r1 ≤ r2)
    (h : roundsOf cfg < 0 ∨ (r2 : Int) < roundsOf cfg) :
    roundsOf cfg < 0 ∨ (r1 : Int) < roundsOf cfg := by
  rcases h with h | h
  · exact Or.inl h
  · right
    have hc : (r1 : Int) ≤ (r2 : Int) := by exact_mod_cast h12
    omega

lemma roundLoop_cancelStart_eq (cfg : RunCfg) (env : RunEnv) (fuel round : Nat)
    (st : CtrlState)
    (hact : roundsOf cfg < 0 ∨ (round : Int) < roundsOf cfg)
    (hcs : env.cancelAtRoundStart round = true) :
    roundLoop cfg env (fuel + 1) round st
      = LoopOut.done (some GoErr.ctxCanceled) st
          [errEvent GoErr.ctxCanceled] := by
  simp only [roundLoop, if_neg (not_not_intro hact), hcs, if_true]

lemma roundLoop_step_eq (cfg : RunCfg) (env : RunEnv) (fuel round : Nat)
    (st st' : CtrlState) (evs : List Event)
    (iss : List (Nat × Option ProbeResult))
    (hact : roundsOf cfg < 0 ∨ (round : Int) < roundsOf cfg)
    (hcs : env.cancelAtRoundStart round = false)
    (hrun : runRound cfg env round st = RoundOut.finished st' evs iss) :
    roundLoop cfg env (fuel + 1) round st
      = (if roundsOf cfg < 0 ∨ (round : Int) ≠ roundsOf cfg - 1 then
           if env.cancelInWait round then
             LoopOut.done (some GoErr.ctxCanceled) st'
               ((evs ++ [roundCompletedEvent round])
                 ++ [errEvent GoErr.ctxCanceled])
           else
             LoopOut.withEvs (evs ++ [roundCompletedEvent round])
               (roundLoop cfg env fuel (round + 1) st')
         else
           LoopOut.withEvs (evs ++ [roundCompletedEvent round])
             (roundLoop cfg env fuel (round + 1) st')) := by
  simp only [roundLoop, if_neg (not_not_intro hact), hcs,
    Bool.false_eq_true, if_false, hrun]

lemma roundLoop_cancel_start (cfg : RunCfg) (env : RunEnv)
    (hp : ∀ t s, (env.probe t s).isOk = true) :
    ∀ (k round : Nat) (st : CtrlState) (fuel : Nat),
      env.cancelAtRoundStart (round + k) = true →
      (∀ j, j < k → env.cancelAtRoundStart (round + j) = false
        ∧ env.cancelInWait (round + j) = false) →
      (roundsOf cfg < 0 ∨ ((round + k : Nat) : Int) < roundsOf cfg) →
      k < fuel →
      ∃ evs, roundLoop cfg env fuel round st
        = LoopOut.done (some GoErr.ctxCanceled)
            (foldRoundsFrom cfg env st round k) evs ∧
        ∀ e ∈ evs, e.ty ≠ EventTy.doneEv := by
  intro k
  induction k with
  | zero =>
    intro round st fuel hcs hbefore hact hfuel
    obtain ⟨fuel, rfl⟩ : ∃ f, fuel = f + 1 := ⟨fuel - 1, by omega⟩
    rw [roundLoop_cancelStart_eq cfg env fuel round st (by simpa using hact)
      (by simpa using hcs)]
    refine ⟨[errEvent GoErr.ctxCanceled], rfl, ?_⟩
    intro e he
    simp only [List.mem_singleton] at he
    rw [he]
    simp [errEvent]
  | succ k ih =>
    intro round st fuel hcs hbefore hact hfuel
    obtain ⟨fuel, rfl⟩ : ∃ f, fuel = f + 1 := ⟨fuel - 1, by omega⟩
    have hact0 : roundsOf cfg < 0 ∨ (round : Int) < roundsOf cfg :=
      roundActive_mono cfg round (round + (k + 1)) (by omega) hact
    have hcs0 : env.cancelAtRoundStart round = false := by
      have h := (hbefore 0 (by omega)).1
      simpa using h
    have hciw0 : env.cancelInWait round = false := by
      have h := (hbefore 0 (by omega)).2
      simpa using h
    obtain ⟨st2, evs1, iss1, hrun, hevs1⟩ :=
      runTTLs_noFatal cfg env round hp cfg.maxHops 1 st
    rw [roundLoop_step_eq cfg env fuel round st st2 evs1 iss1 hact0 hcs0 hrun]
    obtain ⟨evs2, hloop, hevs2⟩ := ih (round + 1) st2 fuel
      (by rw [show round + 1 + k = round + (k + 1) from by omega]; exact hcs)
      (fun j hj => by
        have h := hbefore (j + 1) (by omega)
        rw [show round + (j + 1) = round + 1 + j from by omega] at h
        exact h)
      (by rw [show round + 1 + k = round + (k + 1) from by omega]; exact hact)
      (by omega)
    have hfold : foldRoundsFrom cfg env st round (k + 1)
        = foldRoundsFrom cfg env st2 (round + 1) k := by
      show foldRoundsFrom cfg env (runRound cfg env round st).state
        (round + 1) k = _
      rw [show runRound cfg env round st = RoundOut.finished st2 evs1 iss1 from hrun]
      rfl
    have hres : LoopOut.withEvs (evs1 ++ [roundCompletedEvent round])
        (roundLoop cfg env fuel (round + 1) st2)
        = LoopOut.done (some GoErr.ctxCanceled)
            (foldRoundsFrom cfg env st round (k + 1))
            ((evs1 ++ [roundCompletedEvent round]) ++ evs2) := by
      rw [hloop, hfold]
      rfl
    have hallevs : ∀ e ∈ (evs1 ++ [roundCompletedEvent round]) ++ evs2,
        e.ty ≠ EventTy.doneEv := by
      intro e he
      simp only [List.mem_append] at he
      rcases he with (he | he) | he
      · rw [hevs1 e he]
        simp
      · simp only [List.mem_singleton] at he
        rw [he]
        simp [roundCompletedEvent]
      · exact hevs2 e he
    by_cases hwc : roundsOf cfg < 0 ∨ (round : Int) ≠ roundsOf cfg - 1
    · rw [if_pos hwc, if_neg (by simp [hciw0])]
      exact ⟨_, hres, hallevs⟩
    · rw [if_neg hwc]
      exact ⟨_, hres, hallevs⟩

lemma roundLoop_cancel_wait (cfg : RunCfg) (env : RunEnv)
    (hp : ∀ t s, (env.probe t s).isOk = true) :
    ∀ (k round : Nat) (st : CtrlState) (fuel : Nat),
      env.cancelInWait (round + k) = true →
      env.cancelAtRoundStart (round + k) = false →
      (∀ j, j < k → env.cancelAtRoundStart (round + j) = false
        ∧ env.cancelInWait (round + j) = false) →
      (roundsOf cfg < 0 ∨ ((round + k : Nat) : Int) < roundsOf cfg) →
      (roundsOf cfg < 0 ∨ ((round + k : Nat) : Int) ≠ roundsOf cfg - 1) →
      k < fuel →
      ∃ evs, roundLoop cfg env fuel round st
        = LoopOut.done (some GoErr.ctxCanceled)
            (foldRoundsFrom cfg env st round (k + 1)) evs ∧
        ∀ e ∈ evs, e.ty ≠ EventTy.doneEv := by
  intro k
  induction k with
  | zero =>
    intro round st fuel hciw hcs hbefore hact hwc hfuel
    obtain ⟨fuel, rfl⟩ : ∃ f, fuel = f + 1 := ⟨fuel - 1, by omega⟩
    obtain ⟨st2, evs1, iss1, hrun, hevs1⟩ :=
      runTTLs_noFatal cfg env round hp cfg.maxHops 1 st
    rw [roundLoop_step_eq cfg env fuel round st st2 evs1 iss1
      (by simpa using hact) (by simpa using hcs) hrun]
    rw [if_pos (by simpa using hwc), if_pos (by simpa using hciw)]
    have hfold : foldRoundsFrom cfg env st round 1 = st2 := by
      show foldRoundsFrom cfg env (runRound cfg env round st).state
        (round + 1) 0 = st2
      rw [show runRound cfg env round st = RoundOut.finished st2 evs1 iss1 from hrun]
      rfl
    rw [hfold]
    refine ⟨_, rfl, ?_⟩
    intro e he
    simp only [List.mem_append] at he
    rcases he with (he | he) | he
    · rw [hevs1 e he]
      simp
    · simp only [List.mem_singleton] at he
      rw [he]
      simp [roundCompletedEvent]
    · simp only [List.mem_singleton] at he
      rw [he]
      simp [errEvent]
  | succ k ih =>
    intro round st fuel hciw hcs hbefore hact hwc hfuel
    obtain ⟨fuel, rfl⟩ : ∃ f, fuel = f + 1 := ⟨fuel - 1, by omega⟩
    have hact0 : roundsOf cfg < 0 ∨ (round : Int) < roundsOf cfg :=
      roundActive_mono cfg round (round + (k + 1)) (by omega) hact
    have hcs0 : env.cancelAtRoundStart round = false := by
      have h := (hbefore 0 (by omega)).1
      simpa using h
    have hciw0 : env.cancelInWait round = false := by
      have h := (hbefore 0 (by omega)).2
      simpa using h
    obtain ⟨st2, evs1, iss1, hrun, hevs1⟩ :=
      runTTLs_noFatal cfg env round hp cfg.maxHops 1 st
    rw [roundLoop_step_eq cfg env fuel round st st2 evs1 iss1 hact0 hcs0 hrun]
    obtain ⟨evs2, hloop, hevs2⟩ := ih (round + 1) st2 fuel
      (by rw [show round + 1 + k = round + (k + 1) from by omega]; exact hciw)
      (by rw [show round + 1 + k = round + (k + 1) from by omega]; exact hcs)
      (fun j hj => by
        have h := hbefore (j + 1) (by omega)
        rw [show round + (j + 1) = round + 1 + j from by omega] at h
        exact h)
      (by rw [show round + 1 + k = round + (k + 1) from by omega]; exact hact)
      (by rw [show round + 1 + k = round + (k + 1) from by omega]; exact hwc)
      (by omega)
    have hfold : foldRoundsFrom cfg env st round (k + 1 + 1)
        = foldRoundsFrom cfg env st2 (round + 1) (k + 1) := by
      show foldRoundsFrom cfg env (runRound cfg env round st).state
        (round + 1) (k + 1) = _
      rw [show runRound cfg env round st = RoundOut.finished st2 evs1 iss1 from hrun]
      rfl
    have hres : LoopOut.withEvs (evs1 ++ [roundCompletedEvent round])
        (roundLoop cfg env fuel (round + 1) st2)
        = LoopOut.done (some GoErr.ctxCanceled)
            (foldRoundsFrom cfg env st round (k + 1 + 1))
            ((evs1 ++ [roundCompletedEvent round]) ++ evs2) := by
      rw [hloop, hfold]
      rfl
    have hallevs : ∀ e ∈ (evs1 ++ [roundCompletedEvent round]) ++ evs2,
        e.ty ≠ EventTy.doneEv := by
      intro e he
      simp only [List.mem_append] at he
      rcases he with (he | he) | he
      · rw [hevs1 e he]
        simp
      · simp only [List.mem_singleton] at he
        rw [he]
        simp [roundCompletedEvent]
      · exact hevs2 e he
    by_cases hwc0 : roundsOf cfg < 0 ∨ (round : Int) ≠ roundsOf cfg - 1
    · rw [if_pos hwc0, if_neg (by simp [hciw0])]
      exact ⟨_, hres, hallevs⟩
    · rw [if_neg hwc0]
      exact ⟨_, hres, hallevs⟩

/-- Claim C1 amended: a run stopped by the external cancellation signal
with no setup or transport failure returns the cancellation error (a
non-nil value), never publishes Done, and keeps every Hop update
applied before cancellation visible via Snapshot.  The first conjunct
covers cancellation observed at a round boundary, the second
cancellation observed during the inter-round wait. -/
theorem C1_run_cancelled (cfg : RunCfg) (env : RunEnv) (fuel r0 : Nat)
    (tip : Addr)
    (hres : env.resolveOutcome = Except.ok tip)
    (hset : env.setTargetOutcome = none)
    (hp : ∀ t s, (env.probe t s).isOk = true)
    (hfuel : r0 < fuel) :
    (env.cancelAtRoundStart r0 = true →
      (∀ j, j < r0 → env.cancelAtRoundStart j = false
        ∧ env.cancelInWait j = false) →
      (roundsOf cfg < 0 ∨ (r0 : Int) < roundsOf cfg) →
      ∃ evs, ControllerRun cfg env fuel
        = LoopOut.done (some GoErr.ctxCanceled)
            (stateAfterRounds cfg env r0) evs ∧
        (∀ e ∈ evs, e.ty ≠ EventTy.doneEv) ∧
        snapshotHops (ControllerRun cfg env fuel).state
          = snapshotHops (stateAfterRounds cfg env r0)) ∧
    (env.cancelInWait r0 = true → env.cancelAtRoundStart r0 = false →
      (∀ j, j < r0 → env.cancelAtRoundStart j = false
        ∧ env.cancelInWait j = false) →
      (roundsOf cfg < 0 ∨ (r0 : Int) < roundsOf cfg) →
      (roundsOf cfg < 0 ∨ (r0 : Int) ≠ roundsOf cfg - 1) →
      ∃ evs, ControllerRun cfg env fuel
        = LoopOut.done (some GoErr.ctxCanceled)
            (stateAfterRounds cfg env (r0 + 1)) evs ∧
        (∀ e ∈ evs, e.ty ≠ EventTy.doneEv) ∧
        snapshotHops (ControllerRun cfg env fuel).state
          = snapshotHops (stateAfterRounds cfg env (r0 + 1))) := by
  have hC : ControllerRun cfg env fuel = roundLoop cfg env fuel 0 ⟨[]⟩ := by
    simp only [ControllerRun, hres, hset]
  constructor
  · intro hcs hbefore hact
    obtain ⟨evs, heq, hevs⟩ := roundLoop_cancel_start cfg env hp r0 0 ⟨[]⟩ fuel
      (by rw [Nat.zero_add]; exact hcs)
      (fun j hj => by rw [Nat.zero_add]; exact hbefore j hj)
      (by rw [Nat.zero_add]; exact hact) hfuel
    rw [hC]
    refine ⟨evs, heq, hevs, ?_⟩
    rw [heq]
    rfl
  · intro hciw hcs hbefore hact hwc
    obtain ⟨evs, heq, hevs⟩ := roundLoop_cancel_wait cfg env hp r0 0 ⟨[]⟩ fuel
      (by rw [Nat.zero_add]; exact hciw)
      (by rw [Nat.zero_add]; exact hcs)
      (fun j hj => by rw [Nat.zero_add]; exact hbefore j hj)
      (by rw [Nat.zero_add]; exact hact)
      (by rw [Nat.zero_add]; exact hwc) hfuel
    rw [hC]
    refine ⟨evs, heq, hevs, ?_⟩
    rw [heq]
    rfl

/-- Counterexample configuration for C1 as stated: two rounds of one
hop each. -/
def c1cfg : RunCfg := ⟨1, 2⟩

/-- Counterexample environment: resolution and SetTarget succeed, every
probe returns a benign timeout (never a fatal error), and the
cancellation signal fires during the wait after round 0. -/
def c1env : RunEnv :=
  { resolveOutcome := Except.ok 0
    probe := fun _ _ => ProbeOutcome.ok none
    cancelInWait := fun r => r == 0 }

/-- Counterexample for C1 as stated: this run is stopped by the
cancellation signal, has no setup or transport failure, yet Run returns
the non-nil cancellation error instead of nil. -/
theorem C1_counterexample :
    (ControllerRun c1cfg c1env 5).ret = some GoErr.ctxCanceled ∧
    ¬ (ControllerRun c1cfg c1env 5).ret = none ∧
    (c1env.probe 1 1).isOk = true ∧
    c1env.resolveOutcome = Except.ok 0 ∧
    c1env.setTargetOutcome = none := by
  have h : (ControllerRun c1cfg c1env 5).ret = some GoErr.ctxCanceled := rfl
  refine ⟨h, ?_, rfl, rfl, rfl⟩
  rw [h]
  simp

/-- Witness environment for the amended C1: cancellation observed at
the start of round 1. -/
def c1wenv : RunEnv :=
  { resolveOutcome := Except.ok 0
    probe := fun _ _ => ProbeOutcome.ok none
    cancelAtRoundStart := fun r => r == 1 }

/-- Witness for the amended C1 at a concrete run: round-boundary
cancellation at round 1 of a three-round run. -/
theorem C1_witness :
    ∃ evs, ControllerRun ⟨1, 3⟩ c1wenv 5
      = LoopOut.done (some GoErr.ctxCanceled)
          (stateAfterRounds ⟨1, 3⟩ c1wenv 1) evs ∧
      (∀ e ∈ evs, e.ty ≠ EventTy.doneEv) ∧
      snapshotHops (ControllerRun ⟨1, 3⟩ c1wenv 5).state
        = snapshotHops (stateAfterRounds ⟨1, 3⟩ c1wenv 1) :=
  (C1_run_cancelled ⟨1, 3⟩ c1wenv 5 1 0 rfl rfl (fun _ _ => rfl)
    (by omega)).1 rfl (by decide) (by decide)

end MyMTR

